import Mathlib

/-!
Verification development for a single-administrator comic catalog manager
(`app.py`): a Telegram-driven conversation engine, a channel-backed JSON
persistence layer, and a ZIP chapter-ingestion pipeline.  The definitions
below are a shallow embedding of the corresponding Python functions; each
definition's doc comment names the source function it embeds.
-/

namespace ComicCMS

/-! ### Python string primitives (ASCII fragment)

Helpers modelling the Python string operations used by `app.py`
(`str.strip`, `str.lower`, `str.isdigit`, `in`, `endswith`).  The embedding
covers the ASCII fragment; the catalog operations in `app.py` only rely on
that fragment for their control decisions.
-/

/-- Whitespace characters recognised by Python `str.strip()` / `\s` (ASCII). -/
def isPyWs (c : Char) : Bool :=
  c = ' ' || c = '\t' || c = '\n' || c = '\r' || c = '\x0b' || c = '\x0c'

/-- ASCII decimal digit test (`str.isdigit` on ASCII input). -/
def isDigitCh (c : Char) : Bool :=
  '0' ≤ c && c ≤ '9'

/-- Lowercase one character (ASCII fragment of Python `str.lower`). -/
def pyLowerChar (c : Char) : Char :=
  if 'A' ≤ c && c ≤ 'Z' then Char.ofNat (c.toNat + 32) else c

/-- Python `str.strip()` on a character list. -/
def pyStripChars (cs : List Char) : List Char :=
  ((cs.dropWhile isPyWs).reverse.dropWhile isPyWs).reverse

/-- Python `str.strip()`. -/
def pyStrip (s : String) : String :=
  String.mk (pyStripChars s.data)

/-- Python `str.lower()` (ASCII fragment). -/
def pyLower (s : String) : String :=
  String.mk (s.data.map pyLowerChar)

/-- Value of a digit character list, most significant first (Python `int`). -/
def digitsToNat (cs : List Char) : Nat :=
  cs.foldl (fun a c => a * 10 + (c.toNat - 48)) 0

/-- Code-point comparison of character lists, Python `str.__lt__`. -/
def listCharLt : List Char → List Char → Bool
  | [], [] => false
  | [], _ :: _ => true
  | _ :: _, [] => false
  | a :: as, b :: bs =>
    if a.toNat < b.toNat then true
    else if b.toNat < a.toNat then false
    else listCharLt as bs

/-- Python `str.__lt__` on strings. -/
def strLt (a b : String) : Bool :=
  listCharLt a.data b.data

/-- Does the character list start with the given pattern? -/
def listStarts : List Char → List Char → Bool
  | [], _ => true
  | _ :: _, [] => false
  | a :: as, b :: bs => a = b && listStarts as bs

/-- Python `str.endswith` on character lists. -/
def listEnds (suf cs : List Char) : Bool :=
  listStarts suf.reverse cs.reverse

/-- Stable insertion used by `stableSortBy`: the inserted element goes after
every element that is not strictly greater, matching Python stable sort. -/
def sInsertBy (lt : α → α → Bool) (x : α) : List α → List α
  | [] => [x]
  | y :: ys => if lt y x then y :: sInsertBy lt x ys else x :: y :: ys

/-- Stable ascending sort by a strict comparison, modelling Python `sorted`
and `list.sort` (both stable). -/
def stableSortBy (lt : α → α → Bool) (l : List α) : List α :=
  l.foldr (sInsertBy lt) []

/-! ### Association lists modelling Python `dict`

Python dictionaries preserve insertion order; assigning to an existing key
overwrites its value in place, assigning to a new key appends it.
-/

/-- Python `d.get(k)`. -/
def alistGet (k : String) : List (String × β) → Option β
  | [] => none
  | kv :: t => if kv.fst = k then some kv.snd else alistGet k t

/-- Python `k in d`. -/
def alistHas (k : String) (l : List (String × β)) : Bool :=
  (alistGet k l).isSome

/-- Python `d[k] = v`: overwrite in place, or append when the key is new. -/
def alistSet (k : String) (v : β) : List (String × β) → List (String × β)
  | [] => [(k, v)]
  | kv :: t => if kv.fst = k then (k, v) :: t else kv :: alistSet k v t

/-- Python `del d[k]`. -/
def alistErase (k : String) : List (String × β) → List (String × β)
  | [] => []
  | kv :: t => if kv.fst = k then t else kv :: alistErase k t

/-! ### Data model

A `Work` is the value stored under a slug in `MANGA_DATA`
(`app.py:receive_cover`): title, description, optional cover reference and
the insertion-ordered mapping from chapter key to the ordered page
references.  The `Catalog` is the whole `MANGA_DATA` mapping.
-/

/-- One catalogued work, as stored in `MANGA_DATA[slug]`. -/
structure Work where
  title : String
  description : String
  cover_file_id : Option String
  chapters : List (String × List String)
deriving Repr, DecidableEq

/-- The root aggregate `MANGA_DATA`: insertion-ordered slug-to-work mapping. -/
abbrev Catalog := List (String × Work)

/-- Embeds `slugify` (`app.py`): lowercase, drop characters outside
word/whitespace/hyphen, collapse whitespace-or-hyphen runs to a single
hyphen, trim hyphens (ASCII fragment of the `\w`/`\s` classes). -/
def isWordCh (c : Char) : Bool :=
  isDigitCh c || ('a' ≤ c && c ≤ 'z') || ('A' ≤ c && c ≤ 'Z') || c = '_'

/-- Collapse runs of whitespace or hyphen into single hyphens
(the `re.sub` with pattern of hyphen-or-space runs in `slugify`). -/
def collapseRuns : Bool → List Char → List Char
  | _, [] => []
  | inRun, c :: t =>
    if isPyWs c || c = '-' then
      if inRun then collapseRuns true t else '-' :: collapseRuns true t
    else c :: collapseRuns false t

/-- Python `str.strip` with the single character `-`. -/
def stripHyphens (cs : List Char) : List Char :=
  ((cs.dropWhile (· = '-')).reverse.dropWhile (· = '-')).reverse

/-- Embedding of `slugify` from `app.py`. -/
def slugify (text : String) : String :=
  let low := text.data.map pyLowerChar
  let kept := low.filter (fun c => isWordCh c || isPyWs c || c = '-')
  String.mk (stripHyphens (collapseRuns false kept))

/-! ### Chapter display sort (`manga_detail`, C3)

`manga_detail` sorts the chapter items with `key=float(item[0])` inside a
`try`; if any key raises `ValueError` the whole listing is re-sorted
lexicographically.  `pyFloatQ` models the Python `float()` constructor on
ordinary decimal literals (sign, digits, optional fraction, optional
exponent, surrounding whitespace); the `inf`/`nan` spellings and digit
underscores, which no chapter key in this system uses, are not modelled.
-/

/-- Split an optional leading sign.  Returns (negative?, rest). -/
def splitSign : List Char → Bool × List Char
  | '-' :: t => (true, t)
  | '+' :: t => (false, t)
  | t => (false, t)

/-- Power of ten. -/
def tenPow : Nat → Nat
  | 0 => 1
  | n + 1 => 10 * tenPow n

/-- The exact value of a parsed decimal literal: a signed mantissa and a
power-of-ten exponent, standing for `m * 10 ^ e`. -/
structure PyFloat where
  m : Int
  e : Int
deriving Repr, DecidableEq

/-- Model of Python `float()` on decimal literals: optional surrounding
whitespace, optional sign, digits with optional fraction and exponent.  The
`inf`/`nan` spellings and digit underscores, which no chapter key in this
system uses, are not modelled, and the exact decimal value stands in for
the rounded double (their order agrees except for distinct decimals closer
than one double ulp). -/
def pyFloatQ (s : String) : Option PyFloat :=
  let cs := pyStripChars s.data
  let sg := splitSign cs
  let ip := sg.snd.takeWhile isDigitCh
  let r1 := sg.snd.dropWhile isDigitCh
  let fr : List Char × List Char :=
    match r1 with
    | '.' :: t => (t.takeWhile isDigitCh, t.dropWhile isDigitCh)
    | t => ([], t)
  if ip.isEmpty && fr.fst.isEmpty then none
  else
    let mant : Nat := digitsToNat (ip ++ fr.fst)
    let m : Int := if sg.fst then -(mant : Int) else (mant : Int)
    match fr.snd with
    | [] => some { m := m, e := -(fr.fst.length : Int) }
    | 'e' :: t | 'E' :: t =>
      let esg := splitSign t
      let ed := esg.snd.takeWhile isDigitCh
      if ed.isEmpty || !(esg.snd.dropWhile isDigitCh).isEmpty then none
      else
        let ex : Int := if esg.fst then -(digitsToNat ed : Int) else (digitsToNat ed : Int)
        some { m := m, e := ex - (fr.fst.length : Int) }
    | _ => none

/-- Order on parsed decimal values (`m * 10 ^ e` compared exactly). -/
def pfLt (a b : PyFloat) : Bool :=
  if 0 ≤ a.e - b.e then a.m * (tenPow (a.e - b.e).toNat : Int) < b.m
  else a.m < b.m * (tenPow (b.e - a.e).toNat : Int)

/-- Embeds the chapter sort of `manga_detail` (`app.py`): sort the items
numerically by `float(key)`; if any key fails to parse, Python raises inside
`sorted` and the `except` branch sorts the items lexicographically instead. -/
def chaptersDisplaySorted (chapters : List (String × List String)) : List (String × List String) :=
  if chapters.all (fun kv => (pyFloatQ kv.fst).isSome) then
    stableSortBy
      (fun a b => pfLt ((pyFloatQ a.fst).getD { m := 0, e := 0 }) ((pyFloatQ b.fst).getD { m := 0, e := 0 }))
      chapters
  else
    stableSortBy (fun a b => strLt a.fst b.fst) chapters

/-- Chapter keys in display order (`manga_detail`). -/
def chapterKeysSorted (chapters : List (String × List String)) : List String :=
  (chaptersDisplaySorted chapters).map Prod.fst

/-! ### Archive ingestion (`extract_chapter_number`, `process_zip_chapters`, C4) -/

/-- Separator characters consumed after the chapter label token
(the whitespace-hyphen-underscore run in the `re.sub` of
`extract_chapter_number`). -/
def isSepCh (c : Char) : Bool :=
  isPyWs c || c = '-' || c = '_'

/-- Strip one leading label token on the lowercased name, mirroring the
ordered regex alternation of chapter, ch, episode, ep in
`extract_chapter_number`. -/
def stripLabelToken : List Char → List Char
  | 'c' :: 'h' :: 'a' :: 'p' :: 't' :: 'e' :: 'r' :: t => t
  | 'c' :: 'h' :: t => t
  | 'e' :: 'p' :: 'i' :: 's' :: 'o' :: 'd' :: 'e' :: t => t
  | 'e' :: 'p' :: t => t
  | t => t

/-- Take the maximal digit run and, when a dot followed by a digit comes
next, the dot with the following digit run: the regex of digits with an
optional decimal part in `extract_chapter_number`. -/
def grabNumeral (cs : List Char) : List Char :=
  let ds := cs.takeWhile isDigitCh
  match cs.dropWhile isDigitCh with
  | '.' :: r =>
    if (r.takeWhile isDigitCh).isEmpty then ds
    else ds ++ '.' :: r.takeWhile isDigitCh
  | _ => ds

/-- First decimal-or-integer numeral in the text, if any
(the `re.search` in `extract_chapter_number`). -/
def firstNumeral : List Char → Option (List Char)
  | [] => none
  | c :: t => if isDigitCh c then some (grabNumeral (c :: t)) else firstNumeral t

/-- Embedding of `extract_chapter_number` (`app.py`): lowercase, strip one
chapter-label token and following separators, take the first numeral; fall
back to the raw folder name when no numeral exists. -/
def extract_chapter_number (folder_name : String) : String :=
  let cleaned := (stripLabelToken (folder_name.data.map pyLowerChar)).dropWhile isSepCh
  match firstNumeral cleaned with
  | some num => String.mk num
  | none => folder_name

/-- One piece of the natural-sort key: a lowercased text run or the numeric
value of a digit run. -/
inductive NKey where
  | s (v : List Char) : NKey
  | n (v : Nat) : NKey
deriving Repr, DecidableEq

mutual
/-- Text-run state of the natural-key splitter (`re.split` on digit runs
inside `process_zip_chapters`): accumulating non-digit characters. -/
def natKeyND (acc : List Char) : List Char → List NKey
  | [] => [NKey.s (acc.reverse.map pyLowerChar)]
  | c :: t =>
    if isDigitCh c then NKey.s (acc.reverse.map pyLowerChar) :: natKeyD [c] t
    else natKeyND (c :: acc) t

/-- Digit-run state of the natural-key splitter. -/
def natKeyD (acc : List Char) : List Char → List NKey
  | [] => [NKey.n (digitsToNat acc.reverse), NKey.s []]
  | c :: t =>
    if isDigitCh c then natKeyD (c :: acc) t
    else NKey.n (digitsToNat acc.reverse) :: natKeyND [c] t
end

/-- Natural-sort key of a path: alternating text and numeric pieces, exactly
the Python list comprehension key used in `process_zip_chapters`. -/
def natKey (x : String) : List NKey :=
  natKeyND [] x.data

/-- Order on key pieces.  Same-position pieces of two natural keys always
have the same shape (both text or both numeric), because the splitter
alternates starting with a text run; the cross-shape cases (on which Python
would raise `TypeError`) never arise and are given an arbitrary value. -/
def nkLt : NKey → NKey → Bool
  | NKey.s a, NKey.s b => listCharLt a b
  | NKey.n a, NKey.n b => a < b
  | _, _ => false

/-- Python list comparison on natural keys (lexicographic, shorter prefix
first). -/
def nkeyListLt : List NKey → List NKey → Bool
  | [], [] => false
  | [], _ :: _ => true
  | _ :: _, [] => false
  | a :: as, b :: bs =>
    if nkLt a b then true else if nkLt b a then false else nkeyListLt as bs

/-- Recognised image extensions (`process_zip_chapters`). -/
def isImageFile (p : String) : Bool :=
  let low := p.data.map pyLowerChar
  listEnds (".jpg").data low || listEnds (".jpeg").data low ||
  listEnds (".png").data low || listEnds (".webp").data low ||
  listEnds (".gif").data low

/-- Top-level directory component of an archive entry (`split('/')[0]`). -/
def topFolder (p : String) : String :=
  String.mk (p.data.takeWhile (· ≠ '/'))

/-- Does the entry sit inside a directory and name a file
(`'/' in file_path and not file_path.endswith('/')`)? -/
def isGroupedFile (p : String) : Bool :=
  p.data.contains '/' && !(listEnds (['/']) p.data)

/-- Append a file to its folder group, creating the group at the end on
first sight (the `chapters_folders` accumulation loop). -/
def groupAdd (folder file : String) : List (String × List String) → List (String × List String)
  | [] => [(folder, [file])]
  | kv :: t =>
    if kv.fst = folder then (kv.fst, kv.snd ++ [file]) :: t
    else kv :: groupAdd folder file t

/-- Group archive entries by top-level directory, in first-seen order
(`chapters_folders` in `process_zip_chapters`). -/
def groupByFolder (entries : List String) : List (String × List String) :=
  entries.foldl
    (fun acc p => if isGroupedFile p then groupAdd (topFolder p) p acc else acc) []

/-- Embedding of `process_zip_chapters` (`app.py`).  `entries` are the
archive member names in archive order; `upload` models sending one member's
bytes to the object uploader and returning the opaque reference, `none`
covering a failed upload (the per-file `except ... continue`).  For each
folder group: derive the chapter key, sort the files naturally, keep image
files, upload them in order; a group with no successfully uploaded page is
omitted. -/
def process_zip_chapters (entries : List String) (upload : String → Option String) :
    List (String × List String) :=
  (groupByFolder entries).foldl
    (fun acc kv =>
      let chapterNum := extract_chapter_number kv.fst
      let sortedFiles := stableSortBy (fun a b => nkeyListLt (natKey a) (natKey b)) kv.snd
      let pageIds := (sortedFiles.filter isImageFile).filterMap upload
      if pageIds.isEmpty then acc else alistSet chapterNum pageIds acc)
    []

/-! ### JSON values

`save_data_to_channel` serializes the catalog envelope with
`json.dumps(..., indent=2, ensure_ascii=False)` and `load_data_from_channel`
reads it back with `json.loads`.  The AST below covers exactly the value
fragment this program ever serializes or reads back: null, strings, numbers,
arrays and objects.  A number is carried as its decimal rendering (the text
Python writes for it), since the program never computes with a parsed
number.  Object member order models Python dict insertion order.
-/

mutual
inductive Json : Type where
  | null : Json
  | str : String → Json
  | num : String → Json
  | arr : JsonList → Json
  | obj : JsonMembers → Json
deriving Repr

inductive JsonList : Type where
  | nil : JsonList
  | cons : Json → JsonList → JsonList
deriving Repr

inductive JsonMembers : Type where
  | nil : JsonMembers
  | cons : String → Json → JsonMembers → JsonMembers
deriving Repr
end

/-- Lowercase hexadecimal digit, as Python string formatting writes it. -/
def hexDigitCh (n : Nat) : Char :=
  if n < 10 then Char.ofNat (48 + n) else Char.ofNat (87 + n)

/-- String escaping of `json.dumps` with `ensure_ascii=False`: escape the
quote, the backslash and the named control escapes; other control
characters become a four-digit unicode escape; everything else verbatim. -/
def escChar (c : Char) : List Char :=
  if c = '"' then ['\\', '"']
  else if c = '\\' then ['\\', '\\']
  else if c = '\n' then ['\\', 'n']
  else if c = '\r' then ['\\', 'r']
  else if c = '\t' then ['\\', 't']
  else if c = '\x08' then ['\\', 'b']
  else if c = '\x0c' then ['\\', 'f']
  else if c.toNat < 32 then
    ['\\', 'u', '0', '0', hexDigitCh (c.toNat / 16), hexDigitCh (c.toNat % 16)]
  else [c]

/-- Escape a whole string body. -/
def escString (s : String) : List Char :=
  (s.data.map escChar).flatten

/-- A JSON string literal: quote, escaped body, quote. -/
def quoteString (s : String) : List Char :=
  '"' :: (escString s ++ ['"'])

/-- Indentation prefix at a nesting level (`indent=2`). -/
def jInd (lvl : Nat) : List Char :=
  List.replicate (2 * lvl) ' '

mutual
/-- Text of one JSON value under `json.dumps(..., indent=2)`: empty
containers print on one line, non-empty containers put each item on its own
indented line. -/
def dmpV (lvl : Nat) : Json → List Char
  | Json.null => ['n', 'u', 'l', 'l']
  | Json.str s => quoteString s
  | Json.num lex => lex.data
  | Json.arr JsonList.nil => ['[', ']']
  | Json.arr (JsonList.cons x t) =>
    '[' :: '\n' :: (dmpL (lvl + 1) (JsonList.cons x t) ++ '\n' :: (jInd lvl ++ [']']))
  | Json.obj JsonMembers.nil => ['\x7b', '\x7d']
  | Json.obj (JsonMembers.cons k v t) =>
    '\x7b' :: '\n' :: (dmpM (lvl + 1) (JsonMembers.cons k v t) ++ '\n' :: (jInd lvl ++ ['\x7d']))

/-- Text of the items of a non-empty array, separated by comma-newline. -/
def dmpL (lvl : Nat) : JsonList → List Char
  | JsonList.nil => []
  | JsonList.cons x JsonList.nil => jInd lvl ++ dmpV lvl x
  | JsonList.cons x (JsonList.cons y t) =>
    jInd lvl ++ (dmpV lvl x ++ ',' :: '\n' :: dmpL lvl (JsonList.cons y t))

/-- Text of the members of a non-empty object, separated by comma-newline. -/
def dmpM (lvl : Nat) : JsonMembers → List Char
  | JsonMembers.nil => []
  | JsonMembers.cons k v JsonMembers.nil =>
    jInd lvl ++ (quoteString k ++ ':' :: ' ' :: dmpV lvl v)
  | JsonMembers.cons k v (JsonMembers.cons k2 v2 t) =>
    jInd lvl ++ (quoteString k ++ ':' :: ' ' :: dmpV lvl v) ++
      ',' :: '\n' :: dmpM lvl (JsonMembers.cons k2 v2 t)
end

/-- Decimal digit character. -/
def digitCh (n : Nat) : Char :=
  Char.ofNat (48 + n % 10)

/-- Fuel-driven decimal rendering helper (most significant digit first). -/
def natCharsAux : Nat → Nat → List Char
  | 0, n => [digitCh n]
  | f + 1, n => if n < 10 then [digitCh n] else natCharsAux f (n / 10) ++ [digitCh (n % 10)]

/-- Decimal rendering of a natural number, as Python `json.dumps` writes an
`int`. -/
def pyNatRepr (n : Nat) : List Char :=
  natCharsAux n n

/-! ### The persistence envelope (`save_data_to_channel`, `load_data_from_channel`) -/

/-- Page-reference list as a JSON array of strings. -/
def pagesJson : List String → JsonList
  | [] => JsonList.nil
  | p :: t => JsonList.cons (Json.str p) (pagesJson t)

/-- Chapter mapping as a JSON object. -/
def chaptersJson : List (String × List String) → JsonMembers
  | [] => JsonMembers.nil
  | kv :: t => JsonMembers.cons kv.fst (Json.arr (pagesJson kv.snd)) (chaptersJson t)

/-- One work as the JSON object stored in `MANGA_DATA[slug]`. -/
def workJson (w : Work) : Json :=
  Json.obj (JsonMembers.cons ("title") (Json.str w.title)
    (JsonMembers.cons ("description") (Json.str w.description)
    (JsonMembers.cons ("cover_file_id")
      (match w.cover_file_id with | none => Json.null | some f => Json.str f)
    (JsonMembers.cons ("chapters") (Json.obj (chaptersJson w.chapters)) JsonMembers.nil))))

/-- The slug-to-work mapping as JSON members. -/
def catalogMembers : Catalog → JsonMembers
  | [] => JsonMembers.nil
  | kv :: t => JsonMembers.cons kv.fst (workJson kv.snd) (catalogMembers t)

/-- The whole catalog as the JSON object bound to the `data` field. -/
def catalogJson (cat : Catalog) : Json :=
  Json.obj (catalogMembers cat)

/-- Aggregate chapter count of the catalog (the generator sum in
`save_data_to_channel`). -/
def totalChapters (cat : Catalog) : Nat :=
  (cat.map (fun kv => kv.snd.chapters.length)).sum

/-- The persistence envelope `data_with_metadata` of `save_data_to_channel`:
version, last-updated timestamp, aggregate counts, then the catalog.  `now`
is the decimal rendering of the event-loop timestamp. -/
def envelopeJson (cat : Catalog) (now : String) : Json :=
  Json.obj (JsonMembers.cons ("version") (Json.str ("3.0"))
    (JsonMembers.cons ("last_updated") (Json.num now)
    (JsonMembers.cons ("total_comics") (Json.num (String.mk (pyNatRepr cat.length)))
    (JsonMembers.cons ("total_chapters") (Json.num (String.mk (pyNatRepr (totalChapters cat))))
    (JsonMembers.cons ("data") (catalogJson cat) JsonMembers.nil)))))

/-- The serialized envelope text `pretty_json`. -/
def serializeDoc (cat : Catalog) (now : String) : List Char :=
  dmpV 0 (envelopeJson cat now)

/-! ### The flush protocol (`save_data_to_channel`)

The Telegram side effects are modelled by an oracle `TgEnv` fixing the
outcome of each remote call the flush can make: unpin-and-delete of the
master message, in-place edit, a first send-and-pin, and the recovery
send-and-pin.  Messages to the administrator (size warnings, the critical
alert) are recorded as flags; their delivery is assumed to succeed, as the
source only routes their failure into its catch-all logger.
-/

/-- Outcomes of the remote document-sink calls a single flush may make. -/
structure TgEnv where
  now : String
  unpinDeleteOk : Bool
  editOk : Bool
  sendRes : Option Nat
  pinOk : Bool
  sendRes2 : Option Nat
  pin2Ok : Bool
  upload : String → Option String

/-- Observable result of one `save_data_to_channel` run: the catalog and
handle afterwards, the admin notifications raised, which writes were
attempted and with what payload. -/
structure FlushOut where
  cat : Catalog
  handle : Option Nat
  sizeWarning : Bool
  sizeCritical : Bool
  criticalNotified : Bool
  editAttempted : Bool
  createAttempted : Bool
  payload : Option String
  removedRemote : Bool
  unpinWarned : Bool

/-- Embedding of `save_data_to_channel` (`app.py`).  Empty catalog: tear
down the master message (tolerating failure) and clear the handle.
Otherwise serialize, raise size notifications past 3500 and past 4000
characters, then write: edit in place when a handle exists, else create and
pin; on any failure of that primary attempt, create and pin a fresh
message; if that also fails, notify the administrator critically.  The
in-memory catalog is returned untouched in every branch, as the source
never writes `MANGA_DATA` here. -/
def save_data_to_channel (cat : Catalog) (handle : Option Nat) (env : TgEnv) : FlushOut :=
  if cat.isEmpty then
    match handle with
    | none =>
      { cat := cat, handle := none, sizeWarning := false, sizeCritical := false,
        criticalNotified := false, editAttempted := false, createAttempted := false,
        payload := none, removedRemote := false, unpinWarned := false }
    | some _ =>
      { cat := cat, handle := none, sizeWarning := false, sizeCritical := false,
        criticalNotified := false, editAttempted := false, createAttempted := false,
        payload := none, removedRemote := env.unpinDeleteOk, unpinWarned := !env.unpinDeleteOk }
  else
    let txt := serializeDoc cat env.now
    let payloadStr := String.mk (("<code>").data ++ (txt ++ ("</code>").data))
    let warn := decide (txt.length > 3500)
    let crit := decide (txt.length > 4000)
    let prim : Option Nat × Bool :=
      match handle with
      | some h => (some h, env.editOk)
      | none =>
        match env.sendRes with
        | none => (none, false)
        | some m => (some m, env.pinOk)
    if prim.snd then
      { cat := cat, handle := prim.fst, sizeWarning := warn, sizeCritical := crit,
        criticalNotified := false, editAttempted := handle.isSome,
        createAttempted := handle.isNone, payload := some payloadStr,
        removedRemote := false, unpinWarned := false }
    else
      match env.sendRes2 with
      | none =>
        { cat := cat, handle := prim.fst, sizeWarning := warn, sizeCritical := crit,
          criticalNotified := true, editAttempted := handle.isSome,
          createAttempted := true, payload := some payloadStr,
          removedRemote := false, unpinWarned := false }
      | some m2 =>
        if env.pin2Ok then
          { cat := cat, handle := some m2, sizeWarning := warn, sizeCritical := crit,
            criticalNotified := false, editAttempted := handle.isSome,
            createAttempted := true, payload := some payloadStr,
            removedRemote := false, unpinWarned := false }
        else
          { cat := cat, handle := some m2, sizeWarning := warn, sizeCritical := crit,
            criticalNotified := true, editAttempted := handle.isSome,
            createAttempted := true, payload := some payloadStr,
            removedRemote := false, unpinWarned := false }

/-! ### JSON parsing (`json.loads`)

A recursive-descent reader for the same value fragment the serializer
emits: null, strings, numbers, arrays, objects.  Whitespace is the JSON
whitespace set; unescaped control characters inside strings are rejected
(Python strict mode); a number token is read as a maximal run of number
characters and validated against the JSON number grammar, keeping its
lexeme.  The `true`/`false` literals and surrogate-pair combining, which
this program never writes and never reads back, are not modelled.  The
reader is fuel-indexed with fuel one more than the input length — ample,
since every recursive step consumes input.
-/

/-- JSON whitespace (`json.loads` skips space, tab, newline, return). -/
def isJWs (c : Char) : Bool :=
  c = ' ' || c = '\t' || c = '\n' || c = '\r'

/-- Skip JSON whitespace. -/
def skipWs (cs : List Char) : List Char :=
  cs.dropWhile isJWs

/-- Value of a hexadecimal digit character, if any. -/
def hexValQ (c : Char) : Option Nat :=
  if '0' ≤ c && c ≤ '9' then some (c.toNat - 48)
  else if 'a' ≤ c && c ≤ 'f' then some (c.toNat - 87)
  else if 'A' ≤ c && c ≤ 'F' then some (c.toNat - 55)
  else none

mutual
/-- Read a JSON string body after the opening quote: content characters and
the rest after the closing quote.  Unescaped control characters are
rejected (Python strict mode). -/
def parseStrChars : List Char → Option (List Char × List Char)
  | [] => none
  | c :: rest =>
    if c = '"' then some ([], rest)
    else if c = '\\' then parseEscSeq rest
    else if c.toNat < 32 then none
    else (parseStrChars rest).map (fun p => (c :: p.fst, p.snd))

/-- Read the character after a backslash inside a JSON string. -/
def parseEscSeq : List Char → Option (List Char × List Char)
  | [] => none
  | e :: rest =>
    if e = '"' then (parseStrChars rest).map (fun p => ('"' :: p.fst, p.snd))
    else if e = '\\' then (parseStrChars rest).map (fun p => ('\\' :: p.fst, p.snd))
    else if e = '/' then (parseStrChars rest).map (fun p => ('/' :: p.fst, p.snd))
    else if e = 'b' then (parseStrChars rest).map (fun p => ('\x08' :: p.fst, p.snd))
    else if e = 'f' then (parseStrChars rest).map (fun p => ('\x0c' :: p.fst, p.snd))
    else if e = 'n' then (parseStrChars rest).map (fun p => ('\n' :: p.fst, p.snd))
    else if e = 'r' then (parseStrChars rest).map (fun p => ('\r' :: p.fst, p.snd))
    else if e = 't' then (parseStrChars rest).map (fun p => ('\t' :: p.fst, p.snd))
    else if e = 'u' then
      match rest with
      | h1 :: h2 :: h3 :: h4 :: r =>
        match hexValQ h1, hexValQ h2, hexValQ h3, hexValQ h4 with
        | some a, some b, some c, some d =>
          (parseStrChars r).map
            (fun p => (Char.ofNat (((a * 16 + b) * 16 + c) * 16 + d) :: p.fst, p.snd))
        | _, _, _, _ => none
      | _ => none
    else none
end

/-- Characters a number token may contain. -/
def isNumCh (c : Char) : Bool :=
  isDigitCh c || c = '.' || c = 'e' || c = 'E' || c = '+' || c = '-'

/-- Consume the JSON integer part: a zero, or a nonzero digit and a digit
run. -/
def afterInt : List Char → Option (List Char)
  | [] => none
  | '0' :: t => some t
  | c :: t => if isDigitCh c then some (t.dropWhile isDigitCh) else none

/-- Consume an optional fraction part: a dot demands at least one digit. -/
def afterFrac : List Char → Option (List Char)
  | '.' :: t =>
    if (t.takeWhile isDigitCh).isEmpty then none else some (t.dropWhile isDigitCh)
  | t => some t

/-- Consume an optional exponent part. -/
def afterExp : List Char → Option (List Char)
  | 'e' :: t =>
    let t1 := match t with | '+' :: u => u | '-' :: u => u | u => u
    if (t1.takeWhile isDigitCh).isEmpty then none else some (t1.dropWhile isDigitCh)
  | 'E' :: t =>
    let t1 := match t with | '+' :: u => u | '-' :: u => u | u => u
    if (t1.takeWhile isDigitCh).isEmpty then none else some (t1.dropWhile isDigitCh)
  | t => some t

/-- Does the lexeme match the JSON number grammar in full? -/
def validNumLex (cs : List Char) : Bool :=
  let cs1 := match cs with | '-' :: t => t | t => t
  match afterInt cs1 with
  | none => false
  | some r1 =>
    match afterFrac r1 with
    | none => false
    | some r2 =>
      match afterExp r2 with
      | none => false
      | some r3 => r3.isEmpty

mutual
/-- Read one JSON value (after skipping whitespace); returns the value and
the unconsumed rest. -/
def parseVal : Nat → List Char → Option (Json × List Char)
  | 0, _ => none
  | f + 1, cs =>
    match skipWs cs with
    | [] => none
    | c :: r =>
      if c = '"' then (parseStrChars r).map (fun p => (Json.str (String.mk p.fst), p.snd))
      else if c = '\x7b' then
        match skipWs r with
        | [] => none
        | c2 :: r2 =>
          if c2 = '\x7d' then some (Json.obj JsonMembers.nil, r2)
          else (parseMems f (c2 :: r2)).map (fun p => (Json.obj p.fst, p.snd))
      else if c = '[' then
        match skipWs r with
        | [] => none
        | c2 :: r2 =>
          if c2 = ']' then some (Json.arr JsonList.nil, r2)
          else (parseItems f (c2 :: r2)).map (fun p => (Json.arr p.fst, p.snd))
      else if c = 'n' then
        match r with
        | 'u' :: 'l' :: 'l' :: r2 => some (Json.null, r2)
        | _ => none
      else if isDigitCh c || c = '-' then
        if validNumLex ((c :: r).takeWhile isNumCh) then
          some (Json.num (String.mk ((c :: r).takeWhile isNumCh)), (c :: r).dropWhile isNumCh)
        else none
      else none

/-- Read the items of a non-empty array, up to and including the closing
bracket. -/
def parseItems : Nat → List Char → Option (JsonList × List Char)
  | 0, _ => none
  | f + 1, cs =>
    (parseVal f cs).bind (fun p =>
      match skipWs p.snd with
      | [] => none
      | c :: r =>
        if c = ',' then (parseItems f r).map (fun q => (JsonList.cons p.fst q.fst, q.snd))
        else if c = ']' then some (JsonList.cons p.fst JsonList.nil, r)
        else none)

/-- Read the members of a non-empty object, up to and including the closing
brace. -/
def parseMems : Nat → List Char → Option (JsonMembers × List Char)
  | 0, _ => none
  | f + 1, cs =>
    match skipWs cs with
    | [] => none
    | c :: r =>
      if c = '"' then
        (parseStrChars r).bind (fun kp =>
          match skipWs kp.snd with
          | [] => none
          | c2 :: r2 =>
            if c2 = ':' then
              (parseVal f r2).bind (fun vp =>
                match skipWs vp.snd with
                | [] => none
                | c3 :: r3 =>
                  if c3 = ',' then
                    (parseMems f r3).map
                      (fun q => (JsonMembers.cons (String.mk kp.fst) vp.fst q.fst, q.snd))
                  else if c3 = '\x7d' then
                    some (JsonMembers.cons (String.mk kp.fst) vp.fst JsonMembers.nil, r3)
                  else none)
            else none)
      else none
end

/-- Embedding of `json.loads`: read one value, demand only whitespace after
it. -/
def loads (s : String) : Option Json :=
  match parseVal (s.data.length + 2) s.data with
  | none => none
  | some p => if (skipWs p.snd).isEmpty then some p.fst else none

/-- Lookup in a parsed object, last occurrence winning, as repeated keys do
in a Python dict built by the scanner. -/
def memLookup (k : String) : JsonMembers → Option Json
  | JsonMembers.nil => none
  | JsonMembers.cons k2 v t =>
    match memLookup k t with
    | some r => some r
    | none => if k2 = k then some v else none

/-- Embedding of the parse step of `load_data_from_channel` (`app.py`):
read the pinned text as JSON; when the result is an object carrying a
`data` member, the catalog is that member; otherwise the raw value itself
is taken as the catalog (the legacy form). -/
def parseCatalogDoc (s : String) : Option Json :=
  match loads s with
  | none => none
  | some j =>
    match j with
    | Json.obj ms =>
      match memLookup ("data") ms with
      | some d => some d
      | none => some (Json.obj ms)
    | _ => some j

/-! ### The conversation engine

States are the `range(13)` constants of `app.py`; events are the inbound
update shapes the handler table distinguishes (a slash command, plain text,
a photo, a document with its mime type — and, for a ZIP document, the
archive member names standing for its content — or an inline-button press).
`dispatch` mirrors the `ConversationHandler` of `setup_bot`: with no active
conversation only the seven entry-point commands run; with an active
conversation the current state's handlers are tried, then the single
`/cancel` fallback; an update nothing matches is dropped with no effect.
The `admin_only` decorator is applied exactly where `app.py` applies it.
-/

/-- Conversation states (the `range(13)` tuple in `app.py`). -/
inductive ConvState where
  | selecting_action
  | add_title
  | add_desc
  | add_cover
  | select_manga
  | action_menu
  | add_chapter_method
  | add_chapter_zip
  | delete_confirm
  | help_menu
  | waiting_for_command_input
  | add_chapter_manual
  | select_chapter_delete
deriving Repr, DecidableEq

/-- Inbound update shapes. -/
inductive Event where
  | command (name : String) (fullText : String) : Event
  | text (s : String) : Event
  | photo (fileId : String) : Event
  | document (fileName : String) (mime : Option String) (fileId : String)
      (entries : List String) : Event
  | callback (data : String) : Event
deriving Repr, DecidableEq

/-- Distinguishable outbound messages; payloads record the data the claims
talk about. -/
inductive Msg where
  | unauthorized
  | welcome
  | promptAddTitle
  | noComicsFound
  | selectComicList
  | comicNotFound
  | actionMenuInfo
  | chapterMethodMenu
  | zipInstructions
  | manualChapterStart
  | deleteConfirmAsk
  | comicDeleted
  | helpInfo
  | statsInfo
  | invalidFormat
  | titleSet
  | promptDescription
  | promptCover
  | comicAdded
  | invalidCoverFile
  | chapterPromptPages (k : String)
  | pageAdded (count : Nat)
  | invalidPageFile
  | noPagesError
  | chapterCommitted (k : String) (pages : Nat)
  | processingZip
  | zipInvalidType
  | zipProcessingFailed
  | zipSuccess (chapterKeys : List String) (totalPages : Nat)
  | comicFoundChapter (title : String)
  | listComics
  | cancelled
  | internalError
deriving Repr, DecidableEq

/-- The per-actor `context.user_data` fields `app.py` uses. -/
structure Session where
  title : Option String := none
  description : Option String := none
  cover_file_id : Option String := none
  selected_manga_slug : Option String := none
  selected_manga_title : Option String := none
  delete_manga_slug : Option String := none
  delete_manga_title : Option String := none
  current_chapter : Option String := none
  chapter_pages : Option (List String) := none
deriving Repr, DecidableEq

/-- Whole bot state: catalog, persistence handle, active conversation state
(`none` when no conversation is active or it has ended) and session. -/
structure BotState where
  cat : Catalog
  handle : Option Nat
  conv : Option ConvState
  sess : Session
deriving Repr, DecidableEq

/-- Observable outcome of handling one update. -/
structure StepResult where
  cat : Catalog
  handle : Option Nat
  conv : Option ConvState
  sess : Session
  replies : List Msg
  flushed : Bool
deriving Repr, DecidableEq

/-- The do-nothing outcome: an update no handler matched. -/
def noopR (st : BotState) : StepResult :=
  { cat := st.cat, handle := st.handle, conv := st.conv, sess := st.sess,
    replies := [], flushed := false }

/-- Embedding of the `admin_only` decorator: a non-administrator actor gets
the unauthorized reply and the conversation ends, with no other effect. -/
def adminGuard (adminId uid : Nat) (st : BotState) (r : Unit → StepResult) : StepResult :=
  if uid = adminId then r ()
  else { noopR st with conv := none, replies := [Msg.unauthorized] }

/-- Mime check of `filters.Document.IMAGE` and of the handlers' own
`mime_type.startswith` tests. -/
def isImageMime : Option String → Bool
  | some m => listStarts ("image/").data m.data
  | none => false

/-- Mime check of `filters.Document.ZIP`. -/
def isZipMime : Option String → Bool
  | some m => m = ("application/zip")
  | none => false

/-- File reference an update carries as a page or cover image: the photo
reference, or an image document's reference (`receive_cover`,
`receive_chapter_page`). -/
def imageIdOf : Event → Option String
  | Event.photo fid => some fid
  | Event.document _ mime fid _ => if isImageMime mime then some fid else none
  | _ => none

/-- Embedding of `start`. -/
def start_h (st : BotState) : StepResult :=
  { noopR st with conv := some ConvState.selecting_action, replies := [Msg.welcome] }

/-- Merge ingested chapters into a work, last write winning per chapter key
(the assignment loop of `receive_zip_file`). -/
def mergeChapters (w : Work) (cd : List (String × List String)) : Work :=
  { w with chapters := cd.foldl (fun ch kv => alistSet kv.fst kv.snd ch) w.chapters }

/-- Embedding of `receive_title`: store the stripped text as the pending
title and move to the description state. -/
def receive_title_h (st : BotState) (t : String) : StepResult :=
  { noopR st with
    sess := { st.sess with title := some (pyStrip t) },
    conv := some ConvState.add_desc, replies := [Msg.titleSet] }

/-- Embedding of `receive_description`. -/
def receive_description_h (st : BotState) (t : String) : StepResult :=
  { noopR st with
    sess := { st.sess with description := some (pyStrip t) },
    conv := some ConvState.add_cover, replies := [Msg.promptCover] }

/-- Embedding of `receive_cover`: read the cover reference off the update,
commit the pending work under its freshly computed slug, flush, clear the
session.  A missing pending title or description would raise a `KeyError`
in the source; that cannot occur through the dispatch paths that reach this
state and is reported as an internal error. -/
def receive_cover_h (st : BotState) (env : TgEnv) (ev : Event) : StepResult :=
  match st.sess.title, st.sess.description with
  | some ti, some de =>
    let coverId := imageIdOf ev
    let slug := slugify ti
    let w : Work := { title := ti, description := de, cover_file_id := coverId, chapters := [] }
    let cat1 := alistSet slug w st.cat
    let fo := save_data_to_channel cat1 st.handle env
    { cat := cat1, handle := fo.handle, conv := some ConvState.selecting_action,
      sess := {}, replies := [Msg.comicAdded], flushed := true }
  | _, _ => { noopR st with replies := [Msg.internalError] }

/-- Embedding of `receive_cover_document`: an image document proceeds as a
cover, anything else re-prompts in the cover state. -/
def receive_cover_document_h (st : BotState) (env : TgEnv) (ev : Event) : StepResult :=
  if (imageIdOf ev).isSome then receive_cover_h st env ev
  else { noopR st with conv := some ConvState.add_cover, replies := [Msg.invalidCoverFile] }

/-- Embedding of `finish_manual_chapter`: an empty pending page list is
rejected in place; otherwise the chapter is written into the selected work
when that work still exists, persistence is flushed, and the session is
cleared.  A pending chapter key was always stored by `receive_chapter_number`
on the way here; the unreachable unset case (Python `None`, which
serializes as a `null` key) is rendered as the string null. -/
def finish_manual_chapter_h (st : BotState) (env : TgEnv) : StepResult :=
  let pages := st.sess.chapter_pages.getD []
  if pages.isEmpty then
    { noopR st with conv := some ConvState.add_chapter_manual, replies := [Msg.noPagesError] }
  else
    let key := st.sess.current_chapter.getD ("null")
    let cat1 :=
      match st.sess.selected_manga_slug with
      | none => st.cat
      | some s =>
        match alistGet s st.cat with
        | none => st.cat
        | some w => alistSet s { w with chapters := alistSet key pages w.chapters } st.cat
    let fo := save_data_to_channel cat1 st.handle env
    { cat := cat1, handle := fo.handle, conv := some ConvState.selecting_action,
      sess := {}, replies := [Msg.chapterCommitted key pages.length, Msg.welcome],
      flushed := true }

/-- Embedding of `receive_chapter_number`: any text is stored as the
pending chapter key. -/
def receive_chapter_number_h (st : BotState) (t : String) : StepResult :=
  { noopR st with
    sess := { st.sess with current_chapter := some (pyStrip t) },
    conv := some ConvState.add_chapter_manual,
    replies := [Msg.chapterPromptPages (pyStrip t)] }

/-- Embedding of `receive_chapter_page`: a literal `/done` text finishes
the chapter; a photo or image document is appended to the pending page list
with a running count; anything else is rejected, staying in the state. -/
def receive_chapter_page_h (st : BotState) (env : TgEnv) (ev : Event) : StepResult :=
  match ev with
  | Event.text t =>
    if pyLower (pyStrip t) = ("/done") then finish_manual_chapter_h st env
    else { noopR st with conv := some ConvState.add_chapter_manual, replies := [Msg.invalidPageFile] }
  | _ =>
    match imageIdOf ev with
    | some fid =>
      let pages := st.sess.chapter_pages.getD [] ++ [fid]
      { noopR st with
        sess := { st.sess with chapter_pages := some pages },
        conv := some ConvState.add_chapter_manual, replies := [Msg.pageAdded pages.length] }
    | none =>
      { noopR st with conv := some ConvState.add_chapter_manual, replies := [Msg.invalidPageFile] }

/-- Embedding of `receive_zip_file`: reject a non-`.zip` filename; run the
ingestion pipeline; an empty result reports failure and stays for retry;
otherwise the chapters are merged into the selected work when it still
exists, persistence is flushed and the session cleared. -/
def receive_zip_file_h (st : BotState) (env : TgEnv) (fileName : String)
    (entries : List String) : StepResult :=
  if !(listEnds (".zip").data (pyLower fileName).data) then
    { noopR st with conv := some ConvState.add_chapter_zip, replies := [Msg.zipInvalidType] }
  else
    let cd := process_zip_chapters entries env.upload
    if cd.isEmpty then
      { noopR st with
        conv := some ConvState.add_chapter_zip,
        replies := [Msg.processingZip, Msg.zipProcessingFailed] }
    else
      let cat1 :=
        match st.sess.selected_manga_slug with
        | none => st.cat
        | some s =>
          match alistGet s st.cat with
          | none => st.cat
          | some w => alistSet s (mergeChapters w cd) st.cat
      let fo := save_data_to_channel cat1 st.handle env
      { cat := cat1, handle := fo.handle, conv := some ConvState.selecting_action,
        sess := {},
        replies := [Msg.processingZip,
          Msg.zipSuccess (cd.map Prod.fst) ((cd.map (fun kv => kv.snd.length)).sum),
          Msg.welcome],
        flushed := true }

/-- Embedding of `cancel`: clear the session and return to the main menu. -/
def cancel_h (st : BotState) : StepResult :=
  { noopR st with
    sess := {}, conv := some ConvState.selecting_action,
    replies := [Msg.cancelled, Msg.welcome] }

/-- Embedding of `button_callback`: the full branch table over the callback
data.  The `confirm_delete` branch mirrors Python's truthiness test
`if manga_slug:`, which fails for `None` and for the empty string alike, so
a stored empty slug deletes nothing, flushes nothing and keeps the
session. -/
def button_h (st : BotState) (env : TgEnv) (data : String) : StepResult :=
  if data = ("add_manga") then
    { noopR st with conv := some ConvState.add_title, replies := [Msg.promptAddTitle] }
  else if data = ("manage_manga") then
    if st.cat.isEmpty then
      { noopR st with conv := some ConvState.selecting_action, replies := [Msg.noComicsFound] }
    else
      { noopR st with conv := some ConvState.select_manga, replies := [Msg.selectComicList] }
  else if listStarts ("select_").data data.data then
    let slug := String.mk (data.data.drop 7)
    let sess1 := { st.sess with selected_manga_slug := some slug }
    match alistGet slug st.cat with
    | none =>
      { noopR st with
        sess := sess1, conv := some ConvState.selecting_action,
        replies := [Msg.comicNotFound] }
    | some _ =>
      { noopR st with
        sess := sess1, conv := some ConvState.action_menu,
        replies := [Msg.actionMenuInfo] }
  else if data = ("add_chapters") then
    { noopR st with conv := some ConvState.add_chapter_method, replies := [Msg.chapterMethodMenu] }
  else if data = ("add_chapter_zip") then
    { noopR st with conv := some ConvState.add_chapter_zip, replies := [Msg.zipInstructions] }
  else if data = ("add_chapter_manual") then
    { noopR st with
      sess := { st.sess with chapter_pages := some [], current_chapter := none },
      conv := some ConvState.add_chapter_manual, replies := [Msg.manualChapterStart] }
  else if data = ("delete_comic") then
    match st.sess.selected_manga_slug with
    | none => { noopR st with replies := [Msg.internalError] }
    | some slug =>
      match alistGet slug st.cat with
      | none => { noopR st with replies := [Msg.internalError] }
      | some w =>
        { noopR st with
          sess := { st.sess with
                    delete_manga_slug := some slug,
                    delete_manga_title := some w.title },
          conv := some ConvState.delete_confirm, replies := [Msg.deleteConfirmAsk] }
  else if data = ("confirm_delete") then
    match st.sess.delete_manga_slug with
    | some slug =>
      if slug = ("") then
        { noopR st with conv := some ConvState.selecting_action }
      else
        let cat1 := alistErase slug st.cat
        let fo := save_data_to_channel cat1 st.handle env
        { cat := cat1, handle := fo.handle, conv := some ConvState.selecting_action,
          sess := {}, replies := [Msg.comicDeleted, Msg.welcome], flushed := true }
    | none =>
      { noopR st with conv := some ConvState.selecting_action }
  else if data = ("help_menu") then
    { noopR st with conv := some ConvState.selecting_action, replies := [Msg.helpInfo] }
  else if data = ("show_stats") then
    { noopR st with conv := some ConvState.selecting_action, replies := [Msg.statsInfo] }
  else if data = ("main_menu") then
    { noopR st with
      sess := {}, conv := some ConvState.selecting_action,
      replies := [Msg.welcome] }
  else
    { noopR st with conv := some ConvState.selecting_action }

/-- Model of the `re.search` for a quoted argument after a command token
(`/addcomic "Title"` and friends): the token, at least one whitespace
character, then a non-empty quoted run. -/
def matchQuotedAfter (cmd cs : List Char) : Option String :=
  if listStarts cmd cs then
    let r := cs.drop cmd.length
    if (r.takeWhile isPyWs).isEmpty then none
    else
      match r.dropWhile isPyWs with
      | '"' :: t =>
        let body := t.takeWhile (· ≠ '"')
        if body.isEmpty then none
        else
          match t.dropWhile (· ≠ '"') with
          | '"' :: _ => some (String.mk body)
          | _ => none
      | _ => none
  else none

/-- Leftmost match of the quoted-argument pattern. -/
def searchQuoted (cmd : List Char) : List Char → Option String
  | [] => none
  | c :: t =>
    match matchQuotedAfter cmd (c :: t) with
    | some r => some r
    | none => searchQuoted cmd t

/-- Case-insensitive exact title lookup used by the text commands. -/
def findByTitle (ti : String) : Catalog → Option String
  | [] => none
  | kv :: t => if pyLower kv.snd.title = pyLower ti then some kv.fst else findByTitle ti t

/-- Embedding of `addcomic_command` (note: `app.py` does not wrap this
entry point in `admin_only`). -/
def addcomic_command_h (st : BotState) (fullText : String) : StepResult :=
  match searchQuoted ("/addcomic").data fullText.data with
  | none => { noopR st with conv := none, replies := [Msg.invalidFormat] }
  | some ti =>
    { noopR st with
      sess := { st.sess with title := some ti },
      conv := some ConvState.add_desc, replies := [Msg.promptDescription] }

/-- Embedding of `addchapter_command` (also not wrapped in `admin_only`).
The `if not found_slug:` test of the source is a truthiness test, so a
comic found under the empty slug still counts as not found. -/
def addchapter_command_h (st : BotState) (fullText : String) : StepResult :=
  match searchQuoted ("/addchapter").data fullText.data with
  | none => { noopR st with conv := none, replies := [Msg.invalidFormat] }
  | some ti =>
    match findByTitle ti st.cat with
    | none => { noopR st with conv := none, replies := [Msg.comicNotFound] }
    | some slug =>
      if slug = ("") then
        { noopR st with conv := none, replies := [Msg.comicNotFound] }
      else
        { noopR st with
          sess := { st.sess with
                    selected_manga_slug := some slug,
                    selected_manga_title := some ti },
          conv := some ConvState.add_chapter_method,
          replies := [Msg.comicFoundChapter ti] }

/-- Embedding of `deletecomic_command` (also not wrapped in `admin_only`);
its `if not found_slug:` likewise treats the empty slug as not found. -/
def deletecomic_command_h (st : BotState) (fullText : String) : StepResult :=
  match searchQuoted ("/deletecomic").data fullText.data with
  | none => { noopR st with conv := none, replies := [Msg.invalidFormat] }
  | some ti =>
    match findByTitle ti st.cat with
    | none => { noopR st with conv := none, replies := [Msg.comicNotFound] }
    | some slug =>
      if slug = ("") then
        { noopR st with conv := none, replies := [Msg.comicNotFound] }
      else
        { noopR st with
          sess := { st.sess with
                    delete_manga_slug := some slug,
                    delete_manga_title := some ti },
          conv := some ConvState.delete_confirm, replies := [Msg.deleteConfirmAsk] }

/-- Embedding of `listcomics_command`: reply only; returning `None` starts
no conversation. -/
def listcomics_command_h (st : BotState) : StepResult :=
  { noopR st with replies := [Msg.listComics] }

/-- Embedding of `stats_command`: reply only. -/
def stats_command_h (st : BotState) : StepResult :=
  { noopR st with replies := [Msg.statsInfo] }

/-- Embedding of `show_help_menu` as the `/help` entry point: it returns
`SELECTING_ACTION`, starting a conversation. -/
def help_command_h (st : BotState) : StepResult :=
  { noopR st with conv := some ConvState.selecting_action, replies := [Msg.helpInfo] }

/-- Handlers of the active state, per the `states` table of `setup_bot`;
`none` when no handler of this state accepts the event. -/
def stateStep (adminId uid : Nat) (env : TgEnv) (st : BotState) (s : ConvState)
    (ev : Event) : Option StepResult :=
  match s, ev with
  | ConvState.selecting_action, Event.callback d =>
    some (adminGuard adminId uid st (fun _ => button_h st env d))
  | ConvState.select_manga, Event.callback d =>
    some (adminGuard adminId uid st (fun _ => button_h st env d))
  | ConvState.action_menu, Event.callback d =>
    some (adminGuard adminId uid st (fun _ => button_h st env d))
  | ConvState.add_chapter_method, Event.callback d =>
    some (adminGuard adminId uid st (fun _ => button_h st env d))
  | ConvState.delete_confirm, Event.callback d =>
    some (adminGuard adminId uid st (fun _ => button_h st env d))
  | ConvState.add_title, Event.text t =>
    some (adminGuard adminId uid st (fun _ => receive_title_h st t))
  | ConvState.add_desc, Event.text t =>
    some (adminGuard adminId uid st (fun _ => receive_description_h st t))
  | ConvState.add_cover, Event.photo fid =>
    some (adminGuard adminId uid st (fun _ => receive_cover_h st env (Event.photo fid)))
  | ConvState.add_cover, Event.document fn mime fid es =>
    if isImageMime mime then
      some (adminGuard adminId uid st
        (fun _ => receive_cover_document_h st env (Event.document fn mime fid es)))
    else none
  | ConvState.add_cover, Event.command n full =>
    if n = ("skip") then
      some (adminGuard adminId uid st (fun _ => receive_cover_h st env (Event.command n full)))
    else none
  | ConvState.add_chapter_zip, Event.document fn mime _ es =>
    if isZipMime mime then
      some (adminGuard adminId uid st (fun _ => receive_zip_file_h st env fn es))
    else none
  | ConvState.add_chapter_manual, Event.text t =>
    some (adminGuard adminId uid st (fun _ => receive_chapter_number_h st t))
  | ConvState.add_chapter_manual, Event.photo fid =>
    some (adminGuard adminId uid st (fun _ => receive_chapter_page_h st env (Event.photo fid)))
  | ConvState.add_chapter_manual, Event.document fn mime fid es =>
    if isImageMime mime then
      some (adminGuard adminId uid st
        (fun _ => receive_chapter_page_h st env (Event.document fn mime fid es)))
    else none
  | _, _ => none

/-- Full update routing of the `ConversationHandler` built in `setup_bot`. -/
def dispatch (adminId uid : Nat) (env : TgEnv) (st : BotState) (ev : Event) : StepResult :=
  match st.conv with
  | none =>
    match ev with
    | Event.command n full =>
      if n = ("start") then adminGuard adminId uid st (fun _ => start_h st)
      else if n = ("addcomic") then addcomic_command_h st full
      else if n = ("addchapter") then addchapter_command_h st full
      else if n = ("deletecomic") then deletecomic_command_h st full
      else if n = ("listcomics") then listcomics_command_h st
      else if n = ("stats") then stats_command_h st
      else if n = ("help") then help_command_h st
      else noopR st
    | _ => noopR st
  | some s =>
    match stateStep adminId uid env st s ev with
    | some r => r
    | none =>
      match ev with
      | Event.command n _ =>
        if n = ("cancel") then adminGuard adminId uid st (fun _ => cancel_h st)
        else noopR st
      | _ => noopR st

/-! ### Well-formedness of JSON trees and number lexemes (round-trip side conditions)

`wfV` singles out the JSON trees the serializer can emit: every string
member key and every number lexeme is well formed, so that parsing the
dump recovers the tree.  `numSafeB` says a character list does not start
with something that could extend a preceding number token. -/

def numSafeB : List Char → Bool
  | [] => true
  | c :: _ => !isNumCh c

def goodNumLex (cs : List Char) : Bool :=
  validNumLex cs && cs.all isNumCh &&
    (match cs with | [] => false | c :: _ => isDigitCh c || c = '-')

mutual
def wfV : Json → Bool
  | Json.null => true
  | Json.str _ => true
  | Json.num lex => goodNumLex lex.data
  | Json.arr xs => wfL xs
  | Json.obj ms => wfM ms
def wfL : JsonList → Bool
  | JsonList.nil => true
  | JsonList.cons x t => wfV x && wfL t
def wfM : JsonMembers → Bool
  | JsonMembers.nil => true
  | JsonMembers.cons _ v t => wfV v && wfM t
end

def dmpLTail (lvl : Nat) : JsonList → List Char
  | JsonList.nil => []
  | JsonList.cons y t => ',' :: '\n' :: dmpL lvl (JsonList.cons y t)

def dmpMTail (lvl : Nat) : JsonMembers → List Char
  | JsonMembers.nil => []
  | JsonMembers.cons k v t => ',' :: '\n' :: dmpM lvl (JsonMembers.cons k v t)

/-! ### Concrete fixtures used by the claim theorems -/

set_option maxRecDepth 40000

/-- An environment in which every remote call succeeds. -/
def envA : TgEnv :=
  { now := ("1.5"), unpinDeleteOk := true, editOk := true, sendRes := some 7,
    pinOk := true, sendRes2 := some 9, pin2Ok := true, upload := fun _ => none }

/-- A catalogued work with no chapters yet. -/
def workA : Work :=
  { title := ("My Comic"), description := ("d"), cover_file_id := none, chapters := [] }

/-- A one-work catalog. -/
def catA : Catalog := [(("my-comic"), workA)]

/-- Session mid-way through the manual chapter flow: work selected, chapter
key 3 stored, two pages pending. -/
def sessManual : Session :=
  { selected_manga_slug := some ("my-comic"), current_chapter := some ("3"),
    chapter_pages := some [("p1"), ("p2")] }

/-- Bot state at the point the done signal is sent in the manual flow. -/
def stManualA : BotState :=
  { cat := catA, handle := some 5, conv := some ConvState.add_chapter_manual,
    sess := sessManual }

/-- An environment in which both the in-place edit and the recovery send
fail. -/
def envFail : TgEnv :=
  { now := ("1.5"), unpinDeleteOk := true, editOk := false, sendRes := some 7,
    pinOk := true, sendRes2 := none, pin2Ok := true, upload := fun _ => none }

/-- Session holding the pending delete of the fixture work. -/
def sessDelA : Session := { delete_manga_slug := some ("my-comic") }

/-- A state whose single work sits under the empty slug (the slug a title
such as "!!!" produces) with its deletion already confirmed pending. -/
def stBangA : BotState :=
  { cat := [((""), workA)], handle := some 5, conv := some ConvState.delete_confirm,
    sess := { delete_manga_slug := some ("") } }

/-- A title of the given length (all one letter, so it serializes to
itself). -/
def titleOfLen (k : Nat) : String := String.mk (List.replicate k 'a')

/-- A one-work catalog whose serialized envelope length is 214 plus the
timestamp length plus the title length. -/
def catOfLen (k : Nat) : Catalog :=
  [(("w"), { title := titleOfLen k, description := (""), cover_file_id := none, chapters := [] })]

/-- The environment used at the 4000-character boundary: a 14-character
timestamp rendering. -/
def envC7 : TgEnv :=
  { now := ("1700000000.123"), unpinDeleteOk := true, editOk := true, sendRes := some 7,
    pinOk := true, sendRes2 := some 9, pin2Ok := true, upload := fun _ => none }

/-- State for the C10 witness: selected slug gone from the catalog, two
pages pending. -/
def stGoneA : BotState :=
  { cat := catA, handle := some 5, conv := some ConvState.add_chapter_zip,
    sess := { selected_manga_slug := some ("gone"), current_chapter := some ("3"),
              chapter_pages := some [("p1"), ("p2")] } }

/-- The environment whose uploader succeeds on every entry. -/
def envUp : TgEnv :=
  { now := ("1.5"), unpinDeleteOk := true, editOk := true, sendRes := some 7,
    pinOk := true, sendRes2 := some 9, pin2Ok := true, upload := fun p => some p }

/-! ### Round-trip lemmas for the persistence serialization (toward C9) -/

set_option maxHeartbeats 1000000

theorem skipWs_nonws {c : Char} (h : isJWs c = false) (cs : List Char) :
    skipWs (c :: cs) = c :: cs := by
  simp [skipWs, List.dropWhile_cons, h]

theorem skipWs_ws_app {pre : List Char} (h : ∀ c ∈ pre, isJWs c = true) (cs : List Char) :
    skipWs (pre ++ cs) = skipWs cs := by
  induction pre with
  | nil => rfl
  | cons a t ih =>
    have ha : isJWs a = true := h a (by simp)
    simp only [List.cons_append, skipWs, List.dropWhile_cons, ha, if_true]
    exact ih (fun c hc => h c (by simp [hc]))

theorem jInd_ws (lvl : Nat) : ∀ c ∈ jInd lvl, isJWs c = true := by
  intro c hc
  simp only [jInd, List.mem_replicate] at hc
  rw [hc.2]
  decide

theorem parseVal_ws (fuel : Nat) {pre : List Char} (h : ∀ c ∈ pre, isJWs c = true)
    (cs : List Char) : parseVal fuel (pre ++ cs) = parseVal fuel cs := by
  cases fuel with
  | zero => rfl
  | succ f => simp only [parseVal, skipWs_ws_app h]

theorem digit_props {c : Char} (h : isDigitCh c = true) :
    isJWs c = false ∧ c ≠ '"' ∧ c ≠ '\x7b' ∧ c ≠ '[' ∧ c ≠ 'n' ∧ c ≠ ']' ∧
    c ≠ '\x7d' ∧ c ≠ ',' ∧ isNumCh c = true := by
  simp only [isDigitCh, Bool.and_eq_true, decide_eq_true_eq] at h
  obtain ⟨h1, h2⟩ := h
  refine ⟨?_, ?_, ?_, ?_, ?_, ?_, ?_, ?_, ?_⟩
  · simp only [isJWs, Bool.or_eq_false_iff, decide_eq_false_iff_not]
    refine ⟨⟨⟨?_, ?_⟩, ?_⟩, ?_⟩ <;> (rintro rfl; revert h1 h2; decide)
  · rintro rfl; revert h1 h2; decide
  · rintro rfl; revert h1 h2; decide
  · rintro rfl; revert h1 h2; decide
  · rintro rfl; revert h1 h2; decide
  · rintro rfl; revert h1 h2; decide
  · rintro rfl; revert h1 h2; decide
  · rintro rfl; revert h1 h2; decide
  · simp [isNumCh, isDigitCh, h1, h2]

theorem numStart_props {c : Char} (h : (isDigitCh c || c = '-') = true) :
    isJWs c = false ∧ c ≠ '"' ∧ c ≠ '\x7b' ∧ c ≠ '[' ∧ c ≠ 'n' ∧ c ≠ ']' ∧
    c ≠ '\x7d' ∧ c ≠ ',' := by
  rcases Bool.or_eq_true_iff.mp h with hd | hm
  · obtain ⟨a, b, d, e, f, g, i, j, _⟩ := digit_props hd
    exact ⟨a, b, d, e, f, g, i, j⟩
  · have : c = '-' := by simpa using hm
    subst this
    refine ⟨by decide, by decide, by decide, by decide, by decide, by decide, by decide, by decide⟩

theorem dmpV_head (j : Json) (lvl : Nat) (h : wfV j = true) :
    ∃ c t, dmpV lvl j = c :: t ∧ isJWs c = false ∧ c ≠ ']' ∧ c ≠ '\x7d' := by
  cases j with
  | null => exact ⟨'n', _, rfl, by decide⟩
  | str s => exact ⟨'"', _, rfl, by decide⟩
  | num lex =>
    simp only [wfV, goodNumLex] at h
    cases hl : lex.data with
    | nil => rw [hl] at h; simp at h
    | cons c t =>
      rw [hl] at h
      simp only [Bool.and_eq_true] at h
      obtain ⟨hws, _, _, _, _, hne1, hne2, _⟩ := numStart_props h.2
      exact ⟨c, t, by simp [dmpV, hl], hws, hne1, hne2⟩
  | arr xs =>
    cases xs with
    | nil => exact ⟨'[', _, rfl, by decide⟩
    | cons x t => exact ⟨'[', _, rfl, by decide⟩
  | obj ms =>
    cases ms with
    | nil => exact ⟨'\x7b', _, rfl, by decide⟩
    | cons k v t => exact ⟨'\x7b', _, rfl, by decide⟩

theorem hexValQ_hexDigitCh : ∀ k < 16, hexValQ (hexDigitCh k) = some k := by
  decide

theorem parseStr_escChar (c : Char) (tail : List Char) :
    parseStrChars (escChar c ++ tail) =
      (parseStrChars tail).map (fun p => (c :: p.fst, p.snd)) := by
  by_cases h1 : c = '"'
  · subst h1; simp [escChar, parseStrChars, parseEscSeq]
  by_cases h2 : c = '\\'
  · subst h2; simp [escChar, parseStrChars, parseEscSeq]
  by_cases h3 : c = '\n'
  · subst h3; simp [escChar, parseStrChars, parseEscSeq]
  by_cases h4 : c = '\r'
  · subst h4; simp [escChar, parseStrChars, parseEscSeq]
  by_cases h5 : c = '\t'
  · subst h5; simp [escChar, parseStrChars, parseEscSeq]
  by_cases h6 : c = '\x08'
  · subst h6; simp [escChar, parseStrChars, parseEscSeq]
  by_cases h7 : c = '\x0c'
  · subst h7; simp [escChar, parseStrChars, parseEscSeq]
  by_cases h8 : c.toNat < 32
  · -- the \u00XX path
    have hesc : escChar c =
        ['\\', 'u', '0', '0', hexDigitCh (c.toNat / 16), hexDigitCh (c.toNat % 16)] := by
      simp [escChar, h1, h2, h3, h4, h5, h6, h7, h8]
    rw [hesc]
    have hhi : hexValQ (hexDigitCh (c.toNat / 16)) = some (c.toNat / 16) :=
      hexValQ_hexDigitCh _ (by omega)
    have hlo : hexValQ (hexDigitCh (c.toNat % 16)) = some (c.toNat % 16) :=
      hexValQ_hexDigitCh _ (by omega)
    have hval : c.toNat / 16 * 16 + c.toNat % 16 = c.toNat := by omega
    have hc : Char.ofNat c.toNat = c := Char.ofNat_toNat c
    have h0 : hexValQ '0' = some 0 := by decide
    have hbs : ∀ rest, parseStrChars ('\\' :: rest) = parseEscSeq rest := by
      intro rest; simp [parseStrChars]
    simp only [List.cons_append, List.nil_append, hbs]
    simp [parseEscSeq, hhi, hlo, h0, hval, hc]
  · have hesc : escChar c = [c] := by
      simp [escChar, h1, h2, h3, h4, h5, h6, h7, h8]
    rw [hesc]
    simp [parseStrChars, h1, h2, h8]

theorem parseStr_escape (l : List Char) (rest : List Char) :
    parseStrChars ((l.map escChar).flatten ++ ('"' :: rest)) = some (l, rest) := by
  induction l with
  | nil => simp [parseStrChars]
  | cons c t ih =>
    simp only [List.map_cons, List.flatten_cons, List.append_assoc]
    rw [parseStr_escChar, ih]
    rfl

theorem span_all (p : Char → Bool) (xs : List Char) (rest : List Char)
    (hall : xs.all p = true)
    (hrest : ∀ c t, rest = c :: t → p c = false) :
    (xs ++ rest).takeWhile p = xs ∧ (xs ++ rest).dropWhile p = rest := by
  induction xs with
  | nil =>
    cases rest with
    | nil => exact ⟨rfl, rfl⟩
    | cons c t =>
      have := hrest c t rfl
      simp [List.takeWhile_cons, List.dropWhile_cons, this]
  | cons a as ih =>
    simp only [List.all_cons, Bool.and_eq_true] at hall
    have := ih hall.2
    simp [List.cons_append, List.takeWhile_cons, List.dropWhile_cons, hall.1, this.1, this.2]

theorem numLex_parse {lex rest : List Char} (fuel : Nat)
    (hw : goodNumLex lex = true) (hr : numSafeB rest = true) :
    parseVal (fuel + 1) (lex ++ rest) = some (Json.num (String.mk lex), rest) := by
  simp only [goodNumLex, Bool.and_eq_true] at hw
  obtain ⟨⟨hv, hall⟩, hhead⟩ := hw
  cases lex with
  | nil => simp at hhead
  | cons c t =>
    obtain ⟨hws, hq, hb, hk, hn, _, _, _⟩ := numStart_props hhead
    have hspan := span_all isNumCh (c :: t) rest hall
      (by intro c2 t2 he; subst he; simpa [numSafeB] using hr)
    simp only [parseVal, List.cons_append]
    rw [skipWs_nonws hws]
    simp only [if_neg hq, if_neg hb, if_neg hk, if_neg hn, if_pos hhead]
    rw [show (c :: (t ++ rest)) = ((c :: t) ++ rest) from rfl]
    rw [hspan.1, hspan.2, if_pos hv]

theorem dmpL_eq (lvl : Nat) (x : Json) (xs : JsonList) :
    dmpL lvl (JsonList.cons x xs) = jInd lvl ++ (dmpV lvl x ++ dmpLTail lvl xs) := by
  cases xs <;> simp [dmpL, dmpLTail, List.append_assoc]

theorem dmpM_eq (lvl : Nat) (k : String) (v : Json) (ms : JsonMembers) :
    dmpM lvl (JsonMembers.cons k v ms) =
      jInd lvl ++ (quoteString k ++ (':' :: ' ' :: (dmpV lvl v ++ dmpMTail lvl ms))) := by
  cases ms <;> simp [dmpM, dmpMTail, List.append_assoc]

theorem parseItems_ws (fuel : Nat) {pre : List Char} (h : ∀ c ∈ pre, isJWs c = true)
    (cs : List Char) : parseItems fuel (pre ++ cs) = parseItems fuel cs := by
  cases fuel with
  | zero => rfl
  | succ f => simp only [parseItems, parseVal_ws f h]

theorem parseMems_ws (fuel : Nat) {pre : List Char} (h : ∀ c ∈ pre, isJWs c = true)
    (cs : List Char) : parseMems fuel (pre ++ cs) = parseMems fuel cs := by
  cases fuel with
  | zero => rfl
  | succ f => simp only [parseMems, skipWs_ws_app h]

mutual
theorem rtV : ∀ (j : Json) (lvl : Nat) (rest : List Char) (fuel : Nat),
    wfV j = true → numSafeB rest = true → (dmpV lvl j).length + 2 ≤ fuel →
    parseVal fuel (dmpV lvl j ++ rest) = some (j, rest)
  | Json.null, lvl, rest, fuel, hw, hn, hf => by
    cases fuel with
    | zero => simp [dmpV] at hf
    | succ f =>
      simp only [dmpV, List.cons_append, List.nil_append, parseVal]
      rw [skipWs_nonws (by decide)]
      simp
  | Json.str s, lvl, rest, fuel, hw, hn, hf => by
    cases fuel with
    | zero => simp [dmpV, quoteString] at hf
    | succ f =>
      simp only [dmpV, quoteString, List.cons_append, parseVal]
      rw [skipWs_nonws (by decide)]
      simp only [List.append_assoc, List.singleton_append]
      have := parseStr_escape s.data rest
      simp only [escString] at *
      simp [this]
  | Json.num lex, lvl, rest, fuel, hw, hn, hf => by
    cases fuel with
    | zero => simp [dmpV] at hf
    | succ f => exact numLex_parse f hw hn
  | Json.arr JsonList.nil, lvl, rest, fuel, hw, hn, hf => by
    cases fuel with
    | zero => simp [dmpV] at hf
    | succ f =>
      simp only [dmpV, List.cons_append, List.nil_append, parseVal]
      rw [skipWs_nonws (by decide)]
      simp only [show ((('[' : Char) = '"') = False) from by decide, if_false]
      rw [skipWs_nonws (by decide)]
      simp
  | Json.arr (JsonList.cons x xs), lvl, rest, fuel, hw, hn, hf => by
    cases fuel with
    | zero => simp [dmpV] at hf
    | succ f =>
      have hwx : wfV x = true ∧ wfL xs = true := by
        simpa [wfV, wfL, Bool.and_eq_true] using hw
      obtain ⟨c0, t0, hdx, hnws, hnb, _⟩ := dmpV_head x (lvl + 1) hwx.1
      have hfl : (dmpL (lvl + 1) (JsonList.cons x xs)).length + 3 ≤ f := by
        simp only [dmpV, List.length_cons, List.length_append, List.length_singleton] at hf
        omega
      have hsk : ∀ Y : List Char, skipWs ('\n' :: (jInd (lvl + 1) ++ Y)) = skipWs Y := by
        intro Y
        rw [show ('\n' :: (jInd (lvl + 1) ++ Y)) = (('\n' :: jInd (lvl + 1)) ++ Y) from rfl]
        refine skipWs_ws_app ?_ Y
        intro c hc
        rcases List.mem_cons.mp hc with h | h
        · rw [h]; decide
        · exact jInd_ws _ c h
      have hpi : ∀ Y : List Char, parseItems f (jInd (lvl + 1) ++ Y) = parseItems f Y :=
        fun Y => parseItems_ws f (jInd_ws _) Y
      simp only [dmpV, List.cons_append, List.append_assoc, List.singleton_append,
        List.nil_append, parseVal]
      rw [skipWs_nonws (by decide)]
      simp only [show ((('[' : Char) = '"') = False) from by decide,
        show ((('[' : Char) = '\x7b') = False) from by decide, if_false,
        show ((('[' : Char) = '[') = True) from by decide, if_true]
      rw [dmpL_eq, List.append_assoc, List.append_assoc, hsk, hdx, List.cons_append,
        skipWs_nonws hnws]
      simp only [if_neg hnb]
      rw [← List.cons_append, ← hdx, ← hpi]
      rw [show (jInd (lvl + 1) ++ (dmpV (lvl + 1) x ++ (dmpLTail (lvl + 1) xs ++
            ('\n' :: (jInd lvl ++ (']' :: rest)))))) =
          ((jInd (lvl + 1) ++ (dmpV (lvl + 1) x ++ dmpLTail (lvl + 1) xs)) ++
            ('\n' :: (jInd lvl ++ (']' :: rest)))) from by simp [List.append_assoc]]
      rw [← dmpL_eq]
      rw [rtL x xs (lvl + 1) lvl rest f (by simp [hwx.1, hwx.2]) hfl]
      rfl
  | Json.obj JsonMembers.nil, lvl, rest, fuel, hw, hn, hf => by
    cases fuel with
    | zero => simp [dmpV] at hf
    | succ f =>
      simp only [dmpV, List.cons_append, List.nil_append, parseVal]
      rw [skipWs_nonws (by decide)]
      simp only [show ((('\x7b' : Char) = '"') = False) from by decide, if_false]
      rw [skipWs_nonws (by decide)]
      simp
  | Json.obj (JsonMembers.cons k v ms), lvl, rest, fuel, hw, hn, hf => by
    cases fuel with
    | zero => simp [dmpV] at hf
    | succ f =>
      have hwx : wfV v = true ∧ wfM ms = true := by
        simpa [wfV, wfM, Bool.and_eq_true] using hw
      have hfm : (dmpM (lvl + 1) (JsonMembers.cons k v ms)).length + 3 ≤ f := by
        simp only [dmpV, List.length_cons, List.length_append, List.length_singleton] at hf
        omega
      have hsk : ∀ Y : List Char, skipWs ('\n' :: (jInd (lvl + 1) ++ Y)) = skipWs Y := by
        intro Y
        rw [show ('\n' :: (jInd (lvl + 1) ++ Y)) = (('\n' :: jInd (lvl + 1)) ++ Y) from rfl]
        refine skipWs_ws_app ?_ Y
        intro c hc
        rcases List.mem_cons.mp hc with h | h
        · rw [h]; decide
        · exact jInd_ws _ c h
      have hpm : ∀ Y : List Char, parseMems f (jInd (lvl + 1) ++ Y) = parseMems f Y :=
        fun Y => parseMems_ws f (jInd_ws _) Y
      simp only [dmpV, List.cons_append, List.append_assoc, List.singleton_append,
        List.nil_append, parseVal]
      rw [skipWs_nonws (by decide)]
      simp only [show ((('\x7b' : Char) = '"') = False) from by decide, if_false,
        show ((('\x7b' : Char) = '\x7b') = True) from by decide, if_true]
      rw [dmpM_eq, List.append_assoc, List.append_assoc, hsk]
      simp only [quoteString, List.cons_append, List.append_assoc, List.nil_append]
      rw [skipWs_nonws (by decide)]
      simp only [show ((('"' : Char) = '\x7d') = False) from by decide, if_false]
      rw [show ('"' :: (escString k ++ ('"' :: (':' :: ' ' :: (dmpV (lvl + 1) v ++
            (dmpMTail (lvl + 1) ms ++ ('\n' :: (jInd lvl ++ ('\x7d' :: rest))))))))) =
          (quoteString k ++ (':' :: ' ' :: (dmpV (lvl + 1) v ++
            (dmpMTail (lvl + 1) ms ++ ('\n' :: (jInd lvl ++ ('\x7d' :: rest))))))) from by
        simp [quoteString, List.cons_append, List.append_assoc]]
      rw [← hpm]
      rw [show (jInd (lvl + 1) ++ (quoteString k ++ (':' :: ' ' :: (dmpV (lvl + 1) v ++
            (dmpMTail (lvl + 1) ms ++ ('\n' :: (jInd lvl ++ ('\x7d' :: rest)))))))) =
          ((jInd (lvl + 1) ++ (quoteString k ++ (':' :: ' ' :: (dmpV (lvl + 1) v ++
            dmpMTail (lvl + 1) ms)))) ++ ('\n' :: (jInd lvl ++ ('\x7d' :: rest)))) from by
        simp [List.append_assoc]]
      rw [← dmpM_eq]
      rw [rtM k v ms (lvl + 1) lvl rest f (by simp [hwx.1, hwx.2]) hfm]
      rfl
termination_by j _ _ _ _ _ _ => sizeOf j

theorem rtL : ∀ (x : Json) (xs : JsonList) (lvl cl : Nat) (rest : List Char) (fuel : Nat),
    (wfV x && wfL xs) = true →
    (dmpL lvl (JsonList.cons x xs)).length + 3 ≤ fuel →
    parseItems fuel (dmpL lvl (JsonList.cons x xs) ++ ('\n' :: (jInd cl ++ (']' :: rest)))) =
      some (JsonList.cons x xs, rest)
  | x, xs, lvl, cl, rest, fuel, hw, hf => by
    cases fuel with
    | zero => omega
    | succ f =>
      rw [Bool.and_eq_true] at hw
      obtain ⟨hwx, hwxs⟩ := hw
      have hskC : ∀ Y : List Char, skipWs ('\n' :: (jInd cl ++ Y)) = skipWs Y := by
        intro Y
        rw [show ('\n' :: (jInd cl ++ Y)) = (('\n' :: jInd cl) ++ Y) from rfl]
        refine skipWs_ws_app ?_ Y
        intro c hc
        rcases List.mem_cons.mp hc with h | h
        · rw [h]; decide
        · exact jInd_ws _ c h
      cases xs with
      | nil =>
        have hfv : (dmpV lvl x).length + 2 ≤ f := by
          simp only [dmpL, List.length_append] at hf
          omega
        simp only [dmpL, List.append_assoc, parseItems]
        rw [parseVal_ws f (jInd_ws lvl)]
        rw [rtV x lvl ('\n' :: (jInd cl ++ (']' :: rest))) f hwx rfl hfv]
        simp only [Option.some_bind]
        rw [hskC, skipWs_nonws (by decide)]
        simp only [show (((']' : Char) = ',') = False) from by decide, if_false,
          show (((']' : Char) = ']') = True) from by decide, if_true]
      | cons y t =>
        have hfv : (dmpV lvl x).length + 2 ≤ f := by
          simp only [dmpL, List.length_append, List.length_cons] at hf
          omega
        have hfl2 : (dmpL lvl (JsonList.cons y t)).length + 3 ≤ f := by
          simp only [dmpL, List.length_append, List.length_cons] at hf ⊢
          omega
        simp only [dmpL, List.append_assoc, List.cons_append, parseItems]
        rw [parseVal_ws f (jInd_ws lvl)]
        rw [rtV x lvl (',' :: ('\n' :: (dmpL lvl (JsonList.cons y t) ++
              ('\n' :: (jInd cl ++ (']' :: rest)))))) f hwx rfl hfv]
        simp only [Option.some_bind]
        rw [skipWs_nonws (by decide)]
        simp only [show (((',' : Char) = ',') = True) from by decide, if_true]
        rw [show ('\n' :: (dmpL lvl (JsonList.cons y t) ++ ('\n' :: (jInd cl ++ (']' :: rest))))) =
            (['\n'] ++ (dmpL lvl (JsonList.cons y t) ++ ('\n' :: (jInd cl ++ (']' :: rest))))) from rfl]
        rw [parseItems_ws f (by intro c hc; simp at hc; rw [hc]; decide)]
        rw [rtL y t lvl cl rest f (by simpa [wfL] using hwxs) hfl2]
        rfl
termination_by x xs _ _ _ _ _ _ => sizeOf x + sizeOf xs + 1

theorem rtM : ∀ (k : String) (v : Json) (ms : JsonMembers) (lvl cl : Nat) (rest : List Char)
    (fuel : Nat),
    (wfV v && wfM ms) = true →
    (dmpM lvl (JsonMembers.cons k v ms)).length + 3 ≤ fuel →
    parseMems fuel (dmpM lvl (JsonMembers.cons k v ms) ++ ('\n' :: (jInd cl ++ ('\x7d' :: rest)))) =
      some (JsonMembers.cons k v ms, rest)
  | k, v, ms, lvl, cl, rest, fuel, hw, hf => by
    cases fuel with
    | zero => omega
    | succ f =>
      rw [Bool.and_eq_true] at hw
      obtain ⟨hwv, hwms⟩ := hw
      have hskC : ∀ Y : List Char, skipWs ('\n' :: (jInd cl ++ Y)) = skipWs Y := by
        intro Y
        rw [show ('\n' :: (jInd cl ++ Y)) = (('\n' :: jInd cl) ++ Y) from rfl]
        refine skipWs_ws_app ?_ Y
        intro c hc
        rcases List.mem_cons.mp hc with h | h
        · rw [h]; decide
        · exact jInd_ws _ c h
      cases ms with
      | nil =>
        have hfv : (dmpV lvl v).length + 2 ≤ f := by
          simp only [dmpM, List.length_append, List.length_cons, quoteString] at hf
          omega
        simp only [dmpM, List.append_assoc, List.cons_append, List.nil_append, parseMems]
        rw [skipWs_ws_app (jInd_ws lvl)]
        simp only [quoteString, List.cons_append, List.append_assoc, List.nil_append]
        rw [skipWs_nonws (by decide)]
        simp only [show ((('"' : Char) = '"') = True) from by decide, if_true]
        rw [show escString k = (k.data.map escChar).flatten from rfl, parseStr_escape]
        simp only [Option.some_bind]
        rw [skipWs_nonws (by decide)]
        simp only [show (((':' : Char) = ':') = True) from by decide, if_true]
        rw [show (' ' :: (dmpV lvl v ++ ('\n' :: (jInd cl ++ ('\x7d' :: rest))))) =
            ([' '] ++ (dmpV lvl v ++ ('\n' :: (jInd cl ++ ('\x7d' :: rest))))) from rfl]
        rw [parseVal_ws f (by intro c hc; simp at hc; rw [hc]; decide)]
        rw [rtV v lvl ('\n' :: (jInd cl ++ ('\x7d' :: rest))) f hwv rfl hfv]
        simp only [Option.some_bind]
        rw [hskC, skipWs_nonws (by decide)]
        simp only [show ((('\x7d' : Char) = ',') = False) from by decide, if_false,
          show ((('\x7d' : Char) = '\x7d') = True) from by decide, if_true]
      | cons k2 v2 t =>
        have hfv : (dmpV lvl v).length + 2 ≤ f := by
          simp only [dmpM, List.length_append, List.length_cons, quoteString] at hf
          omega
        have hfm2 : (dmpM lvl (JsonMembers.cons k2 v2 t)).length + 3 ≤ f := by
          simp only [dmpM, List.length_append, List.length_cons, quoteString] at hf ⊢
          omega
        simp only [dmpM, List.append_assoc, List.cons_append, List.nil_append, parseMems]
        rw [skipWs_ws_app (jInd_ws lvl)]
        simp only [quoteString, List.cons_append, List.append_assoc, List.nil_append]
        rw [skipWs_nonws (by decide)]
        simp only [show ((('"' : Char) = '"') = True) from by decide, if_true]
        rw [show escString k = (k.data.map escChar).flatten from rfl, parseStr_escape]
        simp only [Option.some_bind]
        rw [skipWs_nonws (by decide)]
        simp only [show (((':' : Char) = ':') = True) from by decide, if_true]
        rw [show (' ' :: (dmpV lvl v ++ (',' :: ('\n' :: (dmpM lvl (JsonMembers.cons k2 v2 t) ++
              ('\n' :: (jInd cl ++ ('\x7d' :: rest)))))))) =
            ([' '] ++ (dmpV lvl v ++ (',' :: ('\n' :: (dmpM lvl (JsonMembers.cons k2 v2 t) ++
              ('\n' :: (jInd cl ++ ('\x7d' :: rest)))))))) from rfl]
        rw [parseVal_ws f (by intro c hc; simp at hc; rw [hc]; decide)]
        rw [rtV v lvl (',' :: ('\n' :: (dmpM lvl (JsonMembers.cons k2 v2 t) ++
              ('\n' :: (jInd cl ++ ('\x7d' :: rest)))))) f hwv rfl hfv]
        simp only [Option.some_bind]
        rw [skipWs_nonws (by decide)]
        simp only [show (((',' : Char) = ',') = True) from by decide, if_true]
        rw [show ('\n' :: (dmpM lvl (JsonMembers.cons k2 v2 t) ++
              ('\n' :: (jInd cl ++ ('\x7d' :: rest))))) =
            (['\n'] ++ (dmpM lvl (JsonMembers.cons k2 v2 t) ++
              ('\n' :: (jInd cl ++ ('\x7d' :: rest))))) from rfl]
        rw [parseMems_ws f (by intro c hc; simp at hc; rw [hc]; decide)]
        rw [rtM k2 v2 t lvl cl rest f (by simpa [wfM] using hwms) hfm2]
        rfl
termination_by _ v ms _ _ _ _ _ _ => sizeOf v + sizeOf ms + 1
end

theorem loads_dumps (j : Json) (h : wfV j = true) :
    loads (String.mk (dmpV 0 j)) = some j := by
  unfold loads
  rw [show (String.mk (dmpV 0 j)).data = dmpV 0 j from rfl]
  have hp := rtV j 0 [] ((dmpV 0 j).length + 2) h rfl (Nat.le_refl _)
  rw [List.append_nil] at hp
  rw [hp]
  simp [skipWs]

theorem isDigitCh_digitCh (n : Nat) : isDigitCh (digitCh n) = true := by
  have h : n % 10 < 10 := Nat.mod_lt _ (by norm_num)
  simp only [digitCh]
  interval_cases hk : n % 10 <;> decide

theorem digitCh_ne_zero {n : Nat} (h1 : 1 ≤ n) (h2 : n < 10) : digitCh n ≠ '0' := by
  have : n % 10 = n := Nat.mod_eq_of_lt h2
  simp only [digitCh, this]
  interval_cases n <;> decide

theorem natCharsAux_digits : ∀ (f n : Nat), (natCharsAux f n).all isDigitCh = true
  | 0, n => by simp [natCharsAux, isDigitCh_digitCh]
  | f + 1, n => by
    by_cases h : n < 10
    · simp [natCharsAux, h, isDigitCh_digitCh]
    · simp [natCharsAux, h, List.all_append, natCharsAux_digits f (n / 10), isDigitCh_digitCh]

theorem natCharsAux_head : ∀ (f n : Nat), n ≤ f → 1 ≤ n →
    ∃ c t, natCharsAux f n = c :: t ∧ isDigitCh c = true ∧ c ≠ '0'
  | 0, n, hf, h1 => by omega
  | f + 1, n, hf, h1 => by
    by_cases h : n < 10
    · refine ⟨digitCh n, [], by simp [natCharsAux, h], isDigitCh_digitCh n, digitCh_ne_zero h1 h⟩
    · have hle : n / 10 ≤ f := by omega
      have h1q : 1 ≤ n / 10 := by omega
      obtain ⟨c, t, he, hd, hz⟩ := natCharsAux_head f (n / 10) hle h1q
      exact ⟨c, t ++ [digitCh (n % 10)], by simp [natCharsAux, h, he], hd, hz⟩

theorem dropWhile_all {p : Char → Bool} : ∀ {l : List Char}, l.all p = true →
    l.dropWhile p = []
  | [], _ => rfl
  | c :: t, h => by
    simp only [List.all_cons, Bool.and_eq_true] at h
    simp [List.dropWhile_cons, h.1, dropWhile_all h.2]

theorem all_digit_num {l : List Char} (h : l.all isDigitCh = true) :
    l.all isNumCh = true := by
  induction l with
  | nil => rfl
  | cons c t ih =>
    simp only [List.all_cons, Bool.and_eq_true] at h ⊢
    exact ⟨by simp [isNumCh, h.1], ih h.2⟩

theorem validNumLex_digits {l : List Char} {c : Char} {t : List Char}
    (he : l = c :: t) (hall : l.all isDigitCh = true) (hz : c = '0' → t = []) :
    validNumLex l = true := by
  subst he
  simp only [List.all_cons, Bool.and_eq_true] at hall
  unfold validNumLex
  have hsign : (match c :: t with | '-' :: t => t | t => t) = c :: t := by
    split
    · rename_i heq
      injection heq with h1 h2
      subst h1
      simp [isDigitCh] at hall
    · rfl
  rw [hsign]
  dsimp only
  have hint : afterInt (c :: t) = some (t.dropWhile isDigitCh) := by
    unfold afterInt
    split
    · rename_i heq; exact absurd heq (by simp)
    · rename_i heq
      injection heq with h1 h2
      subst h1
      subst h2
      rw [hz rfl]
      rfl
    · rename_i c2 t2 heq
      injection heq with h1 h2
      subst h1; subst h2
      simp [hall.1]
  rw [hint, dropWhile_all hall.2]
  rfl

theorem goodNumLex_pyNatRepr (n : Nat) : goodNumLex (pyNatRepr n) = true := by
  by_cases h0 : n = 0
  · subst h0; decide
  · have h1 : 1 ≤ n := by omega
    obtain ⟨c, t, he, hd, hz⟩ := natCharsAux_head n n (Nat.le_refl n) h1
    have hall : (pyNatRepr n).all isDigitCh = true := natCharsAux_digits n n
    have hv : validNumLex (pyNatRepr n) = true := by
      refine validNumLex_digits (show pyNatRepr n = c :: t from he) hall ?_
      intro hc
      exact absurd hc hz
    simp only [goodNumLex, Bool.and_eq_true]
    refine ⟨⟨hv, all_digit_num hall⟩, ?_⟩
    rw [show pyNatRepr n = c :: t from he]
    simp [hd]

theorem wfL_pagesJson (ps : List String) : wfL (pagesJson ps) = true := by
  induction ps with
  | nil => rfl
  | cons p t ih => simp [pagesJson, wfL, wfV, ih]

theorem wfM_chaptersJson (ch : List (String × List String)) :
    wfM (chaptersJson ch) = true := by
  induction ch with
  | nil => rfl
  | cons kv t ih => simp [chaptersJson, wfM, wfV, wfL_pagesJson, ih]

theorem wfV_workJson (w : Work) : wfV (workJson w) = true := by
  cases hc : w.cover_file_id <;>
    simp [workJson, wfV, wfM, hc, wfM_chaptersJson]

theorem wfM_catalogMembers (cat : Catalog) : wfM (catalogMembers cat) = true := by
  induction cat with
  | nil => rfl
  | cons kv t ih => simp [catalogMembers, wfM, wfV_workJson, ih]

theorem wfV_envelopeJson (cat : Catalog) (ts : String) (hts : goodNumLex ts.data = true) :
    wfV (envelopeJson cat ts) = true := by
  simp [envelopeJson, wfV, wfM, catalogJson, hts, goodNumLex_pyNatRepr, wfM_catalogMembers]

theorem parse_serialize (cat : Catalog) (ts : String) (hts : goodNumLex ts.data = true) :
    parseCatalogDoc (String.mk (serializeDoc cat ts)) = some (catalogJson cat) := by
  unfold parseCatalogDoc
  rw [show serializeDoc cat ts = dmpV 0 (envelopeJson cat ts) from rfl]
  rw [loads_dumps _ (wfV_envelopeJson cat ts hts)]
  simp [envelopeJson, memLookup]

theorem pagesJson_inj : ∀ (a b : List String), pagesJson a = pagesJson b → a = b
  | [], [], _ => rfl
  | [], p :: t, h => by simp [pagesJson] at h
  | p :: t, [], h => by simp [pagesJson] at h
  | p :: t, q :: u, h => by
    injection h with h1 h2
    injection h1 with h3
    rw [h3, pagesJson_inj t u h2]

theorem chaptersJson_inj : ∀ (a b : List (String × List String)),
    chaptersJson a = chaptersJson b → a = b
  | [], [], _ => rfl
  | [], kv :: t, h => by simp [chaptersJson] at h
  | kv :: t, [], h => by simp [chaptersJson] at h
  | kv :: t, kv2 :: u, h => by
    injection h with h1 h2 h3
    injection h2 with h4
    have hp : kv = kv2 := Prod.ext h1 (pagesJson_inj _ _ h4)
    rw [hp, chaptersJson_inj t u h3]

theorem workJson_inj (a b : Work) (h : workJson a = workJson b) : a = b := by
  cases a with
  | mk ta da ca cha =>
    cases b with
    | mk tb db cb chb =>
      simp only [workJson] at h
      injection h with hm
      injection hm with hk1 hv1 hm1
      injection hv1 with ht
      injection hm1 with hk2 hv2 hm2
      injection hv2 with hd
      injection hm2 with hk3 hv3 hm3
      injection hm3 with hk4 hv4 _
      injection hv4 with hch
      have hcov : ca = cb := by
        cases ca <;> cases cb <;> simp_all
      rw [ht, hd, hcov, chaptersJson_inj _ _ hch]

theorem catalogMembers_inj : ∀ (a b : Catalog), catalogMembers a = catalogMembers b → a = b
  | [], [], _ => rfl
  | [], kv :: t, h => by simp [catalogMembers] at h
  | kv :: t, [], h => by simp [catalogMembers] at h
  | kv :: t, kv2 :: u, h => by
    injection h with h1 h2 h3
    have hp : kv = kv2 := Prod.ext h1 (workJson_inj _ _ h2)
    rw [hp, catalogMembers_inj t u h3]

theorem catalogJson_inj (a b : Catalog) (h : catalogJson a = catalogJson b) : a = b := by
  simp only [catalogJson] at h
  injection h with hm
  exact catalogMembers_inj a b hm

/-! ### C1 — authorization of the entry points -/

/-- C1: the claim that every entry point rejects a non-administrator fails
on the code: the text commands are not wrapped in `admin_only`.  With
administrator id 1, actor id 2 sending the `/addcomic` command is processed
normally — the pending title is stored and the conversation enters the
AddDescription state with no unauthorized reply — and `/addchapter` and
`/help` likewise enter states; by contrast the wrapped `/start` entry point
does reject the actor.  The catalog itself stays unmodified. -/
theorem c1_text_commands_bypass_admin_guard :
    ((dispatch 1 2 envA { cat := catA, handle := some 5, conv := none, sess := {} }
        (Event.command ("addcomic") ("/addcomic \"New Comic\""))) =
      { cat := catA, handle := some 5, conv := some ConvState.add_desc,
        sess := { title := some ("New Comic") }, replies := [Msg.promptDescription],
        flushed := false }) ∧
    ((dispatch 1 2 envA { cat := catA, handle := some 5, conv := none, sess := {} }
        (Event.command ("addchapter") ("/addchapter \"My Comic\""))).conv =
      some ConvState.add_chapter_method) ∧
    ((dispatch 1 2 envA { cat := catA, handle := some 5, conv := none, sess := {} }
        (Event.command ("help") ("/help"))).conv = some ConvState.selecting_action) ∧
    ((dispatch 1 2 envA { cat := catA, handle := some 5, conv := none, sess := {} }
        (Event.command ("start") ("/start"))) =
      { cat := catA, handle := some 5, conv := none, sess := {},
        replies := [Msg.unauthorized], flushed := false }) := by
  decide

/-! ### C2 — the manual chapter flow and the done signal -/

/-- C2: the per-step behaviour of the manual flow matches the claim — the
chapter key 3 is stored, each page event appends to the pending list with a
running count and self-loops, `finish_manual_chapter` would commit
`chapters[3]` with exactly the two references in order, flush, clear the
session and return to SelectingAction, and a done signal with an empty
pending list would be rejected with a self-loop — but the done signal
itself is never delivered: `/done` is a command, the AddChapterManualPages
text handler excludes commands, and no handler for `done` is registered, so
the dispatcher drops the update unchanged and the commit is unreachable. -/
theorem c2_done_signal_never_reaches_commit :
    ((dispatch 1 1 envA
        { cat := catA, handle := some 5, conv := some ConvState.add_chapter_manual,
          sess := { selected_manga_slug := some ("my-comic"), chapter_pages := some [] } }
        (Event.text ("3"))).sess.current_chapter = some ("3")) ∧
    ((dispatch 1 1 envA
        { cat := catA, handle := some 5, conv := some ConvState.add_chapter_manual,
          sess := { selected_manga_slug := some ("my-comic"), current_chapter := some ("3"),
                    chapter_pages := some [] } }
        (Event.photo ("p1"))) =
      { cat := catA, handle := some 5, conv := some ConvState.add_chapter_manual,
        sess := { selected_manga_slug := some ("my-comic"), current_chapter := some ("3"),
                  chapter_pages := some [("p1")] },
        replies := [Msg.pageAdded 1], flushed := false }) ∧
    ((dispatch 1 1 envA
        { cat := catA, handle := some 5, conv := some ConvState.add_chapter_manual,
          sess := { selected_manga_slug := some ("my-comic"), current_chapter := some ("3"),
                    chapter_pages := some [("p1")] } }
        (Event.photo ("p2"))).sess.chapter_pages = some [("p1"), ("p2")]) ∧
    ((dispatch 1 1 envA stManualA (Event.command ("done") ("/done"))) = noopR stManualA) ∧
    ((finish_manual_chapter_h stManualA envA) =
      { cat := [(("my-comic"),
          { title := ("My Comic"), description := ("d"), cover_file_id := none,
            chapters := [(("3"), [("p1"), ("p2")])] })],
        handle := some 5, conv := some ConvState.selecting_action, sess := {},
        replies := [Msg.chapterCommitted ("3") 2, Msg.welcome], flushed := true }) ∧
    ((finish_manual_chapter_h
        { cat := catA, handle := some 5, conv := some ConvState.add_chapter_manual,
          sess := { selected_manga_slug := some ("my-comic"), current_chapter := some ("3"),
                    chapter_pages := some [] } } envA) =
      { cat := catA, handle := some 5, conv := some ConvState.add_chapter_manual,
        sess := { selected_manga_slug := some ("my-comic"), current_chapter := some ("3"),
                  chapter_pages := some [] },
        replies := [Msg.noPagesError], flushed := false }) := by
  decide

/-! ### C3 — chapter display ordering -/

/-- C3 counterexample: the claim that each numeric key is ordered
numerically and each non-numeric key lexicographically fails on the code:
with the mixed key list 10, 2, 1.5, x the `float` sort raises on x and the
whole listing is sorted lexicographically, yielding 1.5, 10, 2, x rather
than the claimed 1.5, 2, 10, x. -/
theorem c3_mixed_keys_sorted_lexicographically :
    chapterKeysSorted [(("10"), []), (("2"), []), (("1.5"), []), (("x"), [])] =
      [("1.5"), ("10"), ("2"), ("x")] ∧
    chapterKeysSorted [(("10"), []), (("2"), []), (("1.5"), []), (("x"), [])] ≠
      [("1.5"), ("2"), ("10"), ("x")] := by
  decide

/-- C3 as amended: when every chapter key parses as a decimal number the
keys are ordered numerically; when any key fails to parse the entire
listing falls back to lexicographic ordering, so sorting 10, 2, 1.5, x
yields 1.5, 10, 2, x. -/
theorem c3_numeric_when_all_parse_else_lexicographic :
    chapterKeysSorted [(("10"), []), (("2"), []), (("1.5"), [])] =
      [("1.5"), ("2"), ("10")] ∧
    chapterKeysSorted [(("10"), []), (("2"), []), (("1.5"), []), (("x"), [])] =
      [("1.5"), ("10"), ("2"), ("x")] ∧
    (∀ chapters : List (String × List String),
      (¬ chapters.all (fun kv => (pyFloatQ kv.fst).isSome)) →
      chaptersDisplaySorted chapters = stableSortBy (fun a b => strLt a.fst b.fst) chapters) := by
  refine ⟨by decide, by decide, ?_⟩
  intro chapters hna
  simp only [chaptersDisplaySorted, if_neg hna]

/-! ### C8 — the AddTitle state -/

/-- C8 counterexample: a whitespace-only text in the AddTitle state is not
rejected: the stripped (empty) title is stored and the session advances to
AddDescription. -/
theorem c8_whitespace_title_accepted :
    (dispatch 1 1 envA { cat := [], handle := none, conv := some ConvState.add_title, sess := {} }
        (Event.text ("   "))) =
      { cat := [], handle := none, conv := some ConvState.add_desc,
        sess := { title := some ("") }, replies := [Msg.titleSet], flushed := false } := by
  decide

/-- C8 as amended: in the AddTitle state any text message is stripped and
stored as the pending title — even when the result is empty — and the
session always advances to AddDescription; there is no rejection of empty
or whitespace-only input. -/
theorem c8_any_text_stored_and_advances (a : Nat) (env : TgEnv) (cat : Catalog)
    (h : Option Nat) (sess : Session) (t : String) :
    dispatch a a env { cat := cat, handle := h, conv := some ConvState.add_title, sess := sess }
        (Event.text t) =
      { cat := cat, handle := h, conv := some ConvState.add_desc,
        sess := { sess with title := some (pyStrip t) },
        replies := [Msg.titleSet], flushed := false } := by
  simp [dispatch, stateStep, adminGuard, receive_title_h, noopR]

/-! ### C4 — the archive ingestion scenario -/

/-- C4: ingesting the archive with entries Chapter 1/page1.jpg,
Chapter 1/page2.jpg, Chapter 2.5/a.png, with every upload succeeding,
yields exactly the chapters 1 (both pages, in order) and 2.5 (one page),
with each reference being the uploader's return for that entry in order:
entries are grouped by top-level directory, keys derived by stripping the
chapter label and taking the first numeral, files ordered naturally. -/
theorem c4_archive_ingestion_scenario (upload : String → Option String) (r1 r2 r3 : String)
    (h1 : upload ("Chapter 1/page1.jpg") = some r1)
    (h2 : upload ("Chapter 1/page2.jpg") = some r2)
    (h3 : upload ("Chapter 2.5/a.png") = some r3) :
    process_zip_chapters
      [("Chapter 1/page1.jpg"), ("Chapter 1/page2.jpg"), ("Chapter 2.5/a.png")] upload =
    [(("1"), [r1, r2]), (("2.5"), [r3])] := by
  have hg : groupByFolder [("Chapter 1/page1.jpg"), ("Chapter 1/page2.jpg"), ("Chapter 2.5/a.png")]
      = [(("Chapter 1"), [("Chapter 1/page1.jpg"), ("Chapter 1/page2.jpg")]),
         (("Chapter 2.5"), [("Chapter 2.5/a.png")])] := by decide
  have hs1 : stableSortBy (fun a b => nkeyListLt (natKey a) (natKey b))
      [("Chapter 1/page1.jpg"), ("Chapter 1/page2.jpg")]
      = [("Chapter 1/page1.jpg"), ("Chapter 1/page2.jpg")] := by decide
  have hs2 : stableSortBy (fun a b => nkeyListLt (natKey a) (natKey b))
      [("Chapter 2.5/a.png")] = [("Chapter 2.5/a.png")] := by decide
  have he1 : extract_chapter_number ("Chapter 1") = ("1") := by decide
  have he2 : extract_chapter_number ("Chapter 2.5") = ("2.5") := by decide
  have hf1 : [("Chapter 1/page1.jpg"), ("Chapter 1/page2.jpg")].filter isImageFile
      = [("Chapter 1/page1.jpg"), ("Chapter 1/page2.jpg")] := by decide
  have hf2 : [("Chapter 2.5/a.png")].filter isImageFile = [("Chapter 2.5/a.png")] := by decide
  unfold process_zip_chapters
  rw [hg]
  simp only [List.foldl_cons, List.foldl_nil]
  rw [hs1, hs2, he1, he2, hf1, hf2]
  simp [List.filterMap_cons, h1, h2, h3, alistSet]

/-- Witness for C4 at a concrete uploader. -/
theorem c4_archive_ingestion_scenario_witness :
    process_zip_chapters
      [("Chapter 1/page1.jpg"), ("Chapter 1/page2.jpg"), ("Chapter 2.5/a.png")]
      (fun p => some p) =
    [(("1"), [("Chapter 1/page1.jpg"), ("Chapter 1/page2.jpg")]), (("2.5"), [("Chapter 2.5/a.png")])] :=
  c4_archive_ingestion_scenario (fun p => some p) _ _ _ rfl rfl rfl

/-! ### C5 — flush with an existing handle: overwrite, recreate, fail -/

/-- C5: flushing a non-empty catalog with an existing handle first attempts
the in-place overwrite (when it succeeds nothing is created and the handle
is kept); when the overwrite fails, a fresh document is created, pinned,
and the handle updated to the new identifier; when the fallback creation
also fails, the flush ends with the critical administrator notification,
the handle still the old one, and the in-memory catalog untouched (it is
untouched in every branch). -/
theorem c5_flush_overwrite_then_recreate (cat : Catalog) (h : Nat) (env : TgEnv)
    (hne : cat ≠ []) :
    ((save_data_to_channel cat (some h) env).cat = cat) ∧
    ((save_data_to_channel cat (some h) env).editAttempted = true) ∧
    (env.editOk = true →
      (save_data_to_channel cat (some h) env).handle = some h ∧
      (save_data_to_channel cat (some h) env).createAttempted = false ∧
      (save_data_to_channel cat (some h) env).criticalNotified = false) ∧
    (env.editOk = false → env.sendRes2 = none →
      (save_data_to_channel cat (some h) env).criticalNotified = true ∧
      (save_data_to_channel cat (some h) env).handle = some h ∧
      (save_data_to_channel cat (some h) env).createAttempted = true) ∧
    (∀ m2 : Nat, env.editOk = false → env.sendRes2 = some m2 → env.pin2Ok = true →
      (save_data_to_channel cat (some h) env).handle = some m2 ∧
      (save_data_to_channel cat (some h) env).criticalNotified = false ∧
      (save_data_to_channel cat (some h) env).createAttempted = true) := by
  cases cat with
  | nil => exact absurd rfl hne
  | cons a t =>
    cases env with
    | mk now u e s p s2 p2 up =>
      cases e <;> cases s2 <;> cases p2 <;> simp [save_data_to_channel]

/-- Witness for C5 at a concrete catalog and the doubly-failing
environment: the flush ends critically notified, handle kept, catalog
untouched. -/
theorem c5_flush_overwrite_then_recreate_witness :
    (save_data_to_channel catA (some 5) envFail).criticalNotified = true ∧
    (save_data_to_channel catA (some 5) envFail).handle = some 5 ∧
    (save_data_to_channel catA (some 5) envFail).cat = catA :=
  ⟨((c5_flush_overwrite_then_recreate catA 5 envFail (by decide)).2.2.2.1 rfl rfl).1,
   ((c5_flush_overwrite_then_recreate catA 5 envFail (by decide)).2.2.2.1 rfl rfl).2.1,
   (c5_flush_overwrite_then_recreate catA 5 envFail (by decide)).1⟩

/-! ### C6 — empty-catalog teardown clears the handle -/

/-- C6 counterexample: the claim that deleting the last remaining work
always empties the handle fails when that work sits under the empty slug —
reachable, since `slugify` sends a symbol-only title such as "!!!" to the
empty string.  `confirm_delete` tests the stored slug for truthiness, the
empty string is falsy, so nothing is deleted, no flush happens, the handle
and the session are kept. -/
theorem c6_empty_slug_delete_keeps_handle :
    slugify ("!!!") = ("") ∧
    dispatch 1 1 envA stBangA (Event.callback ("confirm_delete")) =
      { cat := [((""), workA)], handle := some 5,
        conv := some ConvState.selecting_action,
        sess := { delete_manga_slug := some ("") }, replies := [],
        flushed := false } := by
  decide

/-- C6 (amended): flushing an empty catalog with an existing handle clears
the handle whether or not the remote unpin-and-delete succeeded (a document
already gone is tolerated), and the remote document is removed exactly when
the remote calls succeed; confirming deletion of the last remaining work
leaves the handle empty provided the stored slug is non-empty (the empty
slug silently no-ops). -/
theorem c6_empty_flush_clears_handle (h : Nat) (env : TgEnv) :
    ((save_data_to_channel [] (some h) env).handle = none ∧
     (save_data_to_channel [] (some h) env).removedRemote = env.unpinDeleteOk ∧
     (save_data_to_channel [] (some h) env).cat = []) ∧
    (∀ (adminId : Nat) (slug : String) (w : Work) (sess : Session),
       sess.delete_manga_slug = some slug →
       slug ≠ ("") →
       (dispatch adminId adminId env
          { cat := [(slug, w)], handle := some h, conv := some ConvState.delete_confirm,
            sess := sess }
          (Event.callback ("confirm_delete"))).handle = none ∧
       (dispatch adminId adminId env
          { cat := [(slug, w)], handle := some h, conv := some ConvState.delete_confirm,
            sess := sess }
          (Event.callback ("confirm_delete"))).cat = [] ∧
       (dispatch adminId adminId env
          { cat := [(slug, w)], handle := some h, conv := some ConvState.delete_confirm,
            sess := sess }
          (Event.callback ("confirm_delete"))).flushed = true) := by
  constructor
  · cases env with
    | mk now u e s p s2 p2 up => cases u <;> simp [save_data_to_channel]
  · intro adminId slug w sess hslug hne
    simp only [dispatch, stateStep, adminGuard, if_pos rfl]
    simp only [button_h, hslug, listStarts]
    norm_num [alistErase, hne]
    cases env with
    | mk now u e s p s2 p2 up => cases u <;> simp [save_data_to_channel]

/-- Witness for C6: deleting the single fixture work (non-empty slug) with
a failing remote teardown still clears the handle. -/
theorem c6_empty_flush_clears_handle_witness :
    (save_data_to_channel [] (some 5)
      { envFail with unpinDeleteOk := false }).handle = none ∧
    (dispatch 1 1 { envFail with unpinDeleteOk := false }
        { cat := [(("my-comic"), workA)], handle := some 5,
          conv := some ConvState.delete_confirm, sess := sessDelA }
        (Event.callback ("confirm_delete"))).handle = none :=
  ⟨(c6_empty_flush_clears_handle 5 { envFail with unpinDeleteOk := false }).1.1,
   ((c6_empty_flush_clears_handle 5 { envFail with unpinDeleteOk := false }).2
      1 ("my-comic") workA sessDelA rfl (by decide)).1⟩

/-! ### C7 — size thresholds and the unconditional write -/

/-- Size flags and payload of a non-empty flush: read directly off the
serialized length, with the payload carrying the full serialization in
every branch. -/
theorem save_nonempty_size_flags (cat : Catalog) (handle : Option Nat) (env : TgEnv)
    (hne : cat ≠ []) :
    (save_data_to_channel cat handle env).sizeWarning
        = decide ((serializeDoc cat env.now).length > 3500) ∧
    (save_data_to_channel cat handle env).sizeCritical
        = decide ((serializeDoc cat env.now).length > 4000) ∧
    (save_data_to_channel cat handle env).payload
        = some (String.mk (("<code>").data ++ (serializeDoc cat env.now ++ ("</code>").data))) := by
  cases cat with
  | nil => exact absurd rfl hne
  | cons a t =>
    cases env with
    | mk now u e s p s2 p2 up =>
      cases handle <;> cases e <;> cases s <;> cases p <;> cases s2 <;> cases p2 <;>
        simp [save_data_to_channel]

/-- C7 as amended: during a non-empty flush a size warning is sent when the
serialized envelope exceeds 3500 characters and a critical alert when it
exceeds 4000 characters (strictly — 4001 or more); in every case the write
of the full serialization is attempted, untruncated, whatever the size. -/
theorem c7_thresholds_strict_write_attempted (cat : Catalog) (handle : Option Nat)
    (env : TgEnv) (hne : cat ≠ []) :
    ((save_data_to_channel cat handle env).sizeWarning = true ↔
        3500 < (serializeDoc cat env.now).length) ∧
    ((save_data_to_channel cat handle env).sizeCritical = true ↔
        4000 < (serializeDoc cat env.now).length) ∧
    ((save_data_to_channel cat handle env).payload
        = some (String.mk (("<code>").data ++ (serializeDoc cat env.now ++ ("</code>").data)))) := by
  obtain ⟨h1, h2, h3⟩ := save_nonempty_size_flags cat handle env hne
  refine ⟨?_, ?_, h3⟩ <;> simp [h1, h2]

/-- Witness for C7 as amended, at the one-work fixture catalog. -/
theorem c7_thresholds_strict_write_attempted_witness :
    (save_data_to_channel catA (some 5) envA).payload
        = some (String.mk (("<code>").data ++ (serializeDoc catA envA.now ++ ("</code>").data))) :=
  (c7_thresholds_strict_write_attempted catA (some 5) envA (by decide)).2.2

/-- Escaping the all-letter title keeps its length. -/
theorem escString_title_len (k : Nat) : (escString (titleOfLen k)).length = k := by
  have ha : escChar 'a' = ['a'] := by decide
  induction k with
  | zero => rfl
  | succ n ih =>
    simp only [titleOfLen, escString, List.replicate_succ, List.map_cons, List.flatten_cons,
      List.length_append, ha, List.length_cons, List.length_nil] at ih ⊢
    omega

/-- Exact serialized length of the tunable one-work catalog. -/
theorem serialize_catOfLen_len (k : Nat) (ts : String) :
    (serializeDoc (catOfLen k) ts).length = 214 + ts.data.length + k := by
  simp only [serializeDoc, catOfLen, envelopeJson, catalogJson, catalogMembers, workJson,
    chaptersJson, totalChapters, dmpV, dmpM, dmpL, quoteString, jInd, List.length_append,
    List.length_cons, List.length_replicate, List.map, List.sum_cons, List.sum_nil,
    List.length_nil]
  have h1 : (escString ("version")).length = 7 := by decide
  have h2 : (escString ("3.0")).length = 3 := by decide
  have h3 : (escString ("last_updated")).length = 12 := by decide
  have h4 : (escString ("total_comics")).length = 12 := by decide
  have h5 : (escString ("total_chapters")).length = 14 := by decide
  have h6 : (escString ("data")).length = 4 := by decide
  have h7 : (escString ("w")).length = 1 := by decide
  have h8 : (escString ("title")).length = 5 := by decide
  have h9 : (escString ("description")).length = 11 := by decide
  have h10 : (escString ("")).length = 0 := by decide
  have h11 : (escString ("cover_file_id")).length = 13 := by decide
  have h12 : (escString ("chapters")).length = 8 := by decide
  have h13 : (pyNatRepr (0 + 1)).length = 1 := by decide
  have h14 : (pyNatRepr (0 + 0)).length = 1 := by decide
  simp only [h1, h2, h3, h4, h5, h6, h7, h8, h9, h10, h11, h12, h13, h14]
  rw [escString_title_len]
  omega

/-- C7 counterexample: the claim that a critical alert is sent at 4000
characters or more fails at exactly 4000: the envelope of the tuned
catalog is exactly 4000 characters long, the code's strict comparison
raises no critical alert there, while the 3500 warning does fire. -/
theorem c7_no_critical_alert_at_exactly_4000 :
    (serializeDoc (catOfLen 3772) (envC7.now)).length = 4000 ∧
    (save_data_to_channel (catOfLen 3772) (some 5) envC7).sizeCritical = false ∧
    (save_data_to_channel (catOfLen 3772) (some 5) envC7).sizeWarning = true := by
  have hlen : (serializeDoc (catOfLen 3772) (envC7.now)).length = 4000 := by
    rw [serialize_catOfLen_len]
    norm_num [envC7]
  obtain ⟨h1, h2, h3⟩ := save_nonempty_size_flags (catOfLen 3772) (some 5) envC7
    (by simp [catOfLen])
  refine ⟨hlen, ?_, ?_⟩
  · rw [h2, hlen]
    decide
  · rw [h1, hlen]
    decide

/-! ### C10 — committing against a vanished selected work -/

/-- C10: when the selected slug is absent from the catalog at commit time,
both the archive merge and the manual chapter commit leave the catalog
unchanged, still flush persistence, report only success messages (the
absence is never an error), and clear the session back to SelectingAction. -/
theorem c10_absent_slug_commits_are_frames (st : BotState) (env : TgEnv) (slug : String)
    (hsel : st.sess.selected_manga_slug = some slug)
    (habs : alistGet slug st.cat = none)
    (fn : String) (entries : List String)
    (hzip : listEnds (".zip").data (pyLower fn).data = true)
    (hcd : process_zip_chapters entries env.upload ≠ [])
    (ps : List String) (hps : st.sess.chapter_pages = some ps) (hne : ps ≠ []) :
    ((receive_zip_file_h st env fn entries).cat = st.cat ∧
     (receive_zip_file_h st env fn entries).flushed = true ∧
     (receive_zip_file_h st env fn entries).sess = {} ∧
     (receive_zip_file_h st env fn entries).conv = some ConvState.selecting_action ∧
     (receive_zip_file_h st env fn entries).replies =
       [Msg.processingZip,
        Msg.zipSuccess ((process_zip_chapters entries env.upload).map Prod.fst)
          (((process_zip_chapters entries env.upload).map (fun kv => kv.snd.length)).sum),
        Msg.welcome]) ∧
    ((finish_manual_chapter_h st env).cat = st.cat ∧
     (finish_manual_chapter_h st env).flushed = true ∧
     (finish_manual_chapter_h st env).sess = {} ∧
     (finish_manual_chapter_h st env).conv = some ConvState.selecting_action ∧
     (finish_manual_chapter_h st env).replies =
       [Msg.chapterCommitted (st.sess.current_chapter.getD ("null")) ps.length, Msg.welcome]) := by
  have hcde : (process_zip_chapters entries env.upload).isEmpty = false := by
    rcases hq : process_zip_chapters entries env.upload with _ | ⟨a, t⟩
    · exact absurd hq hcd
    · rfl
  have hpse : ps.isEmpty = false := by
    rcases hne2 : ps with _ | ⟨a, t⟩
    · exact absurd hne2 hne
    · rfl
  constructor
  · simp only [receive_zip_file_h, hzip, hcde, Bool.not_true, Bool.false_eq_true, if_false,
      hsel, habs]
    simp
  · simp only [finish_manual_chapter_h, hps, Option.getD_some, hpse, Bool.false_eq_true,
      if_false, hsel, habs]
    simp

/-- Witness for C10 at a concrete state whose selected slug is absent. -/
theorem c10_absent_slug_commits_are_frames_witness :
    (receive_zip_file_h stGoneA envUp ("c.zip") [("Chapter 1/a.jpg")]).cat = stGoneA.cat ∧
    (finish_manual_chapter_h stGoneA envUp).cat = stGoneA.cat :=
  ⟨(c10_absent_slug_commits_are_frames stGoneA envUp ("gone") rfl (by decide) ("c.zip")
      [("Chapter 1/a.jpg")] (by decide) (by decide) [("p1"), ("p2")] rfl (by decide)).1.1,
   (c10_absent_slug_commits_are_frames stGoneA envUp ("gone") rfl (by decide) ("c.zip")
      [("Chapter 1/a.jpg")] (by decide) (by decide) [("p1"), ("p2")] rfl (by decide)).2.1⟩

/-! ### C9 — the persistence round-trip -/

/-- C9: for every catalog of zero or more works with zero or more
chapters, and any timestamp whose rendering is a plain JSON number
lexeme, parsing the serialized persistence envelope and selecting its
`data` field recovers exactly the catalog's JSON image; together with
the injectivity of that image this is the round-trip
`parse (serialize catalog) = catalog`. -/
theorem c9_parse_of_serialize_recovers_catalog (cat : Catalog) (ts : String)
    (hts : goodNumLex ts.data = true) :
    parseCatalogDoc (String.mk (serializeDoc cat ts)) = some (catalogJson cat) ∧
    (∀ c1 c2 : Catalog, catalogJson c1 = catalogJson c2 → c1 = c2) :=
  ⟨parse_serialize cat ts hts, catalogJson_inj⟩

/-- Witness for C9 at the concrete fixture catalog and the timestamp
rendering 1700.25. -/
theorem c9_parse_of_serialize_recovers_catalog_witness :
    goodNumLex (("1700.25") : String).data = true ∧
    (parseCatalogDoc (String.mk (serializeDoc catA ("1700.25"))) = some (catalogJson catA) ∧
     (∀ c1 c2 : Catalog, catalogJson c1 = catalogJson c2 → c1 = c2)) :=
  ⟨by decide, c9_parse_of_serialize_recovers_catalog catA ("1700.25") (by decide)⟩

end ComicCMS
